import Mathlib

/-!
# Plandex build pipeline: per-path build queue and file build state machine

A shallow embedding of `app/server/model/plan/build_exec.go`, of `formatModelContext`
in `app/server/model/plan/tell_context.go` and of `DeleteOrgUserHandler` in
`app/server/handlers/users.go`.

* Go maps that are only indexed become total functions (a missing key reads as the
  zero value); maps whose presence test matters (`v, ok := m[k]`, `m[k] != nil`)
  become lookups returning `Option`.
* `*types.ActiveBuild` values live in a heap indexed by natural numbers, so that the
  writes `activeBuild.Success = true` are visible through every queue holding the
  same pointer.
* Calls into collaborators defined elsewhere in the server (the stream sink, the
  storage layer, the lock, the completion callbacks) are recorded, in call order, in
  the `trace` of the world; their results are supplied by an `Env`.
* `go f(x)` is recorded as a spawn event: the spawned call is not run inline.
-/

namespace Plandex

/-! ## Data model -/

/-- One requested mutation of one path (`types.ActiveBuild`). -/
structure ActiveBuild where
  ReplyId : String := ""
  Path : String := ""
  FileContent : String := ""
  FileContentTokens : Int := 0
  CurrentFileTokens : Int := 0
  IsMoveOp : Bool := false
  MoveDestination : String := ""
  IsRemoveOp : Bool := false
  IsResetOp : Bool := false
  Success : Bool := false
  deriving DecidableEq, Repr

/-- Modelled from the spec: `ActiveBuild.IsFileOperation`, declared with the type in
the `types` package. A build is a file operation when it is a move, a remove or a
reset, the three kinds the data model lists beside the plain edit. -/
def ActiveBuild.IsFileOperation (ab : ActiveBuild) : Bool :=
  ab.IsMoveOp || ab.IsRemoveOp || ab.IsResetOp

/-- A piece of model input (`db.Context`); only the fields the sources read. -/
structure Context where
  ContextType : String := ""
  Name : String := ""
  Url : String := ""
  FilePath : String := ""
  Body : String := ""
  NumTokens : Int := 0
  deriving DecidableEq, Repr

/-- The materialised view of the plan's files (`shared.CurrentPlanFiles`): `Files` is
a Go `map[string]string`, kept as an association list read with `List.lookup`. -/
structure CurrentPlanFiles where
  Files : List (String × String) := []
  deriving DecidableEq, Repr

/-- The plan state a build is resolved against (`shared.CurrentPlanState`). The
`CurrentPlanFiles` pointer may be nil. -/
structure CurrentPlanState where
  CurrentPlanFiles : Option CurrentPlanFiles := none
  deriving DecidableEq, Repr

/-- Payload of a progress message (`shared.BuildInfo`). -/
structure BuildInfo where
  Path : String := ""
  NumTokens : Int := 0
  Removed : Bool := false
  Finished : Bool := false
  deriving DecidableEq, Repr

/-- Record of one applied build handed to storage (`db.PlanFileResult`). -/
structure PlanFileResult where
  OrgId : String := ""
  PlanId : String := ""
  PlanBuildId : String := ""
  ConvoMessageId : String := ""
  Path : String := ""
  Content : String := ""
  RemovedFile : Bool := false
  deriving DecidableEq, Repr

/-- The stored build row (`db.PlanBuild`); only the fields `buildFile` reads. -/
structure PlanBuild where
  Id : String := ""
  ConvoMessageId : String := ""
  deriving DecidableEq, Repr

/-- In-flight state of one plan and branch (`types.ActivePlan`). -/
structure ActivePlan where
  Id : String
  Branch : String
  BuildQueuesByPath : String → List Nat
  IsBuildingByPath : String → Bool
  ContextsByPath : String → Option Context
  BuiltFiles : String → Bool
  DidEditFiles : Bool

/-- Calls that leave the functions embedded here, in the order they are made. -/
inductive Event where
  /-- The call `activePlan.Stream` with a `BuildInfo` stream message. -/
  | stream (info : BuildInfo)
  /-- The statement `go state.execPlanBuild(b)`. -/
  | spawnExecPlanBuild (b : Nat)
  /-- The call `fileState.onFinishBuildFile(planRes)`. -/
  | onFinishBuildFile (planRes : PlanFileResult)
  /-- The call `fileState.onBuildProcessed(activeBuild)`. -/
  | onBuildProcessed (b : Nat)
  /-- The call `fileState.onBuildFileError(err)`. -/
  | onBuildFileError (err : String)
  /-- The call `fileState.buildNextInQueue()` of the worker of `path`. -/
  | buildNextInQueue (path : String)
  /-- The call `activePlan.LockForActiveBuild(db.LockScopeWrite, build.Id)`. -/
  | lockForActiveBuild (buildId : String)
  /-- The call `db.RejectPlanFile(currentOrgId, planId, filePath, now)`. -/
  | rejectPlanFile (orgId planId path : String)
  /-- The call `activePlan.UnlockForActiveBuild()`. -/
  | unlockForActiveBuild
  /-- The call `time.Sleep` with a number of milliseconds. -/
  | sleep (ms : Nat)
  /-- The call `fileState.buildStructuredEdits()` for the build of `path`. -/
  | buildStructuredEdits (path : String)
  /-- The call `db.SetPlanStatus(plan.Id, branch, status, "")`. -/
  | setPlanStatus (planId branch status : String)
  /-- The statement `go state.queueBuilds(pendingBuilds)`. -/
  | spawnQueueBuilds (builds : List Nat)
  /-- The send `active.StreamDoneCh <- nil` on the plan of `planId` and `branch`. -/
  | streamDone (planId branch : String)
  deriving DecidableEq, Repr

/-- The process state the embedded functions read and write: the active-plan
registry keyed by plan id and branch, the heap of `ActiveBuild` values with its
allocation pointer, the calls made so far, and the unguarded field writes. -/
structure World where
  activePlans : String → String → Option ActivePlan
  heap : Nat → ActiveBuild
  nextPtr : Nat
  trace : List Event
  /-- Names of the `ActivePlan` fields assigned through a reference obtained from
  `GetActivePlan`, outside any `UpdateActivePlan` callback. -/
  directWrites : List String := []

/-- The stream state shared by the builds of one `Build` call
(`activeBuildStreamState`); `planId` stands for `plan.Id`. -/
structure activeBuildStreamState where
  currentOrgId : String := ""
  currentUserId : String := ""
  planId : String := ""
  branch : String := ""
  deriving DecidableEq, Repr

/-- The state of one dequeued build (`activeBuildStreamFileState`). -/
structure activeBuildStreamFileState where
  activeBuildStreamState : activeBuildStreamState
  filePath : String
  activeBuild : Nat
  build : PlanBuild := {}
  currentPlanState : CurrentPlanState := {}
  preBuildState : String := ""
  isNewFile : Bool := false
  contextPart : Option Context := none
  deriving DecidableEq, Repr

/-- Results of the collaborators for one run: what `loadBuildFile` stores in the file
state or the error it returns, the errors (if any) of the lock, the revert and the
unlock, and the token estimator. -/
structure Env where
  loadBuildFile : ActiveBuild → Except String (PlanBuild × CurrentPlanState)
  lockForActiveBuild : Option String
  rejectPlanFile : Option String
  unlockForActiveBuild : Option String
  getNumTokensEstimate : String → Int

/-! ## Registry and heap primitives -/

/-- Go map write `m[k] = v` on a map read as a total function. -/
def setKey {α : Type} (m : String → α) (k : String) (v : α) : String → α :=
  fun q => if q = k then v else m q

/-- Heap write through a pointer. -/
def setPtr (h : Nat → ActiveBuild) (p : Nat) (v : ActiveBuild) : Nat → ActiveBuild :=
  fun q => if q = p then v else h q

/-- Modelled from the spec: `GetActivePlan`, of the active-plan registry, is a
snapshot read of the entry of the plan and branch, absent or present. -/
def GetActivePlan (w : World) (planId branch : String) : Option ActivePlan :=
  w.activePlans planId branch

/-- Modelled from the spec: `UpdateActivePlan`, of the active-plan registry, applies
the mutation to the entry of the plan and branch under exclusive access; an absent
entry is left absent. -/
def UpdateActivePlan (w : World) (planId branch : String)
    (fn : ActivePlan → ActivePlan) : World :=
  { w with activePlans := fun i b =>
      if i = planId ∧ b = branch then (w.activePlans i b).map fn else w.activePlans i b }

/-- Append one call to the trace. -/
def emit (w : World) (e : Event) : World :=
  { w with trace := w.trace ++ [e] }

/-- Allocate a fresh `ActiveBuild` (a composite literal whose address is taken). -/
def alloc (w : World) (ab : ActiveBuild) : World × Nat :=
  ({ w with heap := setPtr w.heap w.nextPtr ab, nextPtr := w.nextPtr + 1 }, w.nextPtr)

/-! ## resolvePreBuildState -/

/-- The method `resolvePreBuildState`. `none` is the nil dereference of
`currentPlan.CurrentPlanFiles.Files` when the plan-file view is nil. -/
def resolvePreBuildState (w : World) (fileState : activeBuildStreamFileState) :
    Option activeBuildStreamFileState :=
  let filePath := fileState.filePath
  let currentPlan := fileState.currentPlanState
  let planId := fileState.activeBuildStreamState.planId
  let branch := fileState.activeBuildStreamState.branch
  match GetActivePlan w planId branch with
  | none => some fileState
  | some activePlan =>
    let contextPart := activePlan.ContextsByPath filePath
    match currentPlan.CurrentPlanFiles with
    | none => none
    | some currentPlanFiles =>
      match currentPlanFiles.Files.lookup filePath with
      | some currentPlanFile =>
        some { fileState with
          isNewFile := false, preBuildState := currentPlanFile, contextPart := contextPart }
      | none =>
        match contextPart with
        | some c =>
          some { fileState with
            isNewFile := false, preBuildState := c.Body, contextPart := contextPart }
        | none =>
          some { fileState with
            isNewFile := true, preBuildState := "", contextPart := contextPart }

/-! ## queueBuild -/

/-- First critical section of `queueBuild`: the callback appends the build to the
queue of its path and reads the building flag of that path. -/
def queueBuildAppend (w : World) (state : activeBuildStreamState) (activeBuild : Nat) :
    World × Bool :=
  let planId := state.planId
  let branch := state.branch
  let filePath := (w.heap activeBuild).Path
  let isBuilding :=
    match GetActivePlan w planId branch with
    | some active => active.IsBuildingByPath filePath
    | none => false
  (UpdateActivePlan w planId branch (fun active =>
      { active with
        BuildQueuesByPath :=
          setKey active.BuildQueuesByPath filePath
            (active.BuildQueuesByPath filePath ++ [activeBuild]) }),
    isBuilding)

/-- Second critical section of `queueBuild`: the callback sets the building flag. -/
def queueBuildSetFlag (w : World) (state : activeBuildStreamState) (activeBuild : Nat) :
    World :=
  let filePath := (w.heap activeBuild).Path
  UpdateActivePlan w state.planId state.branch (fun active =>
    { active with IsBuildingByPath := setKey active.IsBuildingByPath filePath true })

/-- Last statement of `queueBuild`: `go state.execPlanBuild(activeBuild)`. -/
def queueBuildSpawn (w : World) (activeBuild : Nat) : World :=
  emit w (.spawnExecPlanBuild activeBuild)

/-- The method `queueBuild`, run without interference from other goroutines. -/
def queueBuild (w : World) (state : activeBuildStreamState) (activeBuild : Nat) : World :=
  let planId := state.planId
  let branch := state.branch
  let (w1, isBuilding) := queueBuildAppend w state activeBuild
  if isBuilding then
    w1
  else
    match GetActivePlan w1 planId branch with
    | none => w1
    | some _ => queueBuildSpawn (queueBuildSetFlag w1 state activeBuild) activeBuild

/-- The method `queueBuilds`: `queueBuild` on each build, in slice order. -/
def queueBuilds (w : World) (state : activeBuildStreamState) (activeBuilds : List Nat) :
    World :=
  activeBuilds.foldl (fun acc activeBuild => queueBuild acc state activeBuild) w

/-! ## Interleaved queueBuild calls -/

/-- Program counter of one `queueBuild` call between its atomic steps. -/
inductive QueueBuildPc where
  /-- Nothing done yet. -/
  | start
  /-- The build is appended and the flag was read as false. -/
  | appended
  /-- The flag is set; the worker is not started yet. -/
  | flagSet
  /-- The call has returned. -/
  | returned
  deriving DecidableEq, Repr

/-- One in-flight `queueBuild` call: its argument and where it stands. -/
structure QueueBuildCall where
  activeBuild : Nat
  pc : QueueBuildPc := .start
  deriving DecidableEq, Repr

/-- One atomic step of a `queueBuild` call: append-and-read-flag (returning at once
when the flag was true), then set-flag (returning when the plan is gone), then the
spawn of the worker. -/
def queueBuildStep (w : World) (state : activeBuildStreamState) (c : QueueBuildCall) :
    World × QueueBuildCall :=
  match c.pc with
  | .start =>
    let (w1, isBuilding) := queueBuildAppend w state c.activeBuild
    (w1, { c with pc := if isBuilding then .returned else .appended })
  | .appended =>
    match GetActivePlan w state.planId state.branch with
    | none => (w, { c with pc := .returned })
    | some _ => (queueBuildSetFlag w state c.activeBuild, { c with pc := .flagSet })
  | .flagSet => (queueBuildSpawn w c.activeBuild, { c with pc := .returned })
  | .returned => (w, c)

/-- Run the calls under a schedule: each entry names the call that takes the next
atomic step. -/
def runSchedule (state : activeBuildStreamState) :
    World → List QueueBuildCall → List Nat → World × List QueueBuildCall
  | w, calls, [] => (w, calls)
  | w, calls, i :: rest =>
    match calls.get? i with
    | none => runSchedule state w calls rest
    | some c =>
      let (w1, c1) := queueBuildStep w state c
      runSchedule state w1 (calls.set i c1) rest

/-! ## buildFile and execPlanBuild -/

/-- The method `buildFile`. -/
def buildFile (env : Env) (w : World) (fileState : activeBuildStreamFileState) : World :=
  let filePath := fileState.filePath
  let activeBuild := fileState.activeBuild
  let planId := fileState.activeBuildStreamState.planId
  let branch := fileState.activeBuildStreamState.branch
  let currentOrgId := fileState.activeBuildStreamState.currentOrgId
  let build := fileState.build
  match GetActivePlan w planId branch with
  | none => w
  | some _ =>
    let ab := w.heap activeBuild
    if ab.IsMoveOp then
      let (w1, removeBuild) := alloc w
        { ReplyId := ab.ReplyId, Path := ab.Path, IsRemoveOp := true }
      let (w2, createBuild) := alloc w1
        { ReplyId := ab.ReplyId, Path := ab.MoveDestination,
          FileContent := fileState.preBuildState, FileContentTokens := 0 }
      let w3 := queueBuilds w2 fileState.activeBuildStreamState [removeBuild, createBuild]
      let w4 := { w3 with
        heap := setPtr w3.heap activeBuild { w3.heap activeBuild with Success := true } }
      let w5 := UpdateActivePlan w4 planId branch (fun active =>
        { active with
          IsBuildingByPath := setKey active.IsBuildingByPath filePath false,
          BuiltFiles := setKey active.BuiltFiles filePath true })
      emit w5 (.buildNextInQueue filePath)
    else if ab.IsRemoveOp then
      let w1 := emit w
        (.stream { Path := filePath, NumTokens := 0, Removed := true, Finished := true })
      emit w1 (.onFinishBuildFile
        { OrgId := currentOrgId, PlanId := planId, PlanBuildId := build.Id,
          ConvoMessageId := build.ConvoMessageId, Path := filePath, Content := "",
          RemovedFile := true })
    else if ab.IsResetOp then
      let w1 := emit w (.lockForActiveBuild build.Id)
      match env.lockForActiveBuild with
      | some err =>
        emit w1 (.onBuildFileError ("error locking active plan for reset: " ++ err))
      | none =>
        let w2 := emit w1 (.rejectPlanFile currentOrgId planId filePath)
        match env.rejectPlanFile with
        | some err =>
          let w3 := emit w2 .unlockForActiveBuild
          emit w3 (.onBuildFileError ("error rejecting plan file: " ++ err))
        | none =>
          let w3 := emit w2 .unlockForActiveBuild
          match env.unlockForActiveBuild with
          | some err =>
            emit w3 (.onBuildFileError ("error unlocking active plan for reset: " ++ err))
          | none =>
            let w4 := emit w3
              (.stream { Path := filePath, NumTokens := 0, Finished := true,
                         Removed := fileState.contextPart.isNone })
            let w5 := emit w4 (.sleep 200)
            emit w5 (.onBuildProcessed activeBuild)
    else if fileState.preBuildState = "" then
      let w1 := emit w (.stream { Path := filePath, NumTokens := 0, Finished := true })
      emit w1 (.onFinishBuildFile
        { OrgId := currentOrgId, PlanId := planId, PlanBuildId := build.Id,
          ConvoMessageId := build.ConvoMessageId, Path := filePath,
          Content := ab.FileContent })
    else
      let currentNumTokens := env.getNumTokensEstimate fileState.preBuildState
      let w1 := { w with
        heap := setPtr w.heap activeBuild
          { w.heap activeBuild with CurrentFileTokens := currentNumTokens } }
      let w2 := { w1 with
        activePlans := fun i b =>
          if i = planId ∧ b = branch then
            (w1.activePlans i b).map (fun active => { active with DidEditFiles := true })
          else w1.activePlans i b,
        directWrites := w1.directWrites ++ ["DidEditFiles"] }
      emit w2 (.buildStructuredEdits filePath)

/-- The method `execPlanBuild`; the argument is `none` for a nil pointer. The result
is `none` when `resolvePreBuildState` dereferences a nil plan-file view. The fields
`build` and `currentPlanState` of the file state are the ones `loadBuildFile`
stores. -/
def execPlanBuild (env : Env) (w : World) (buildState : activeBuildStreamState)
    (activeBuild : Option Nat) : Option World :=
  match activeBuild with
  | none => some w
  | some b =>
    let planId := buildState.planId
    let branch := buildState.branch
    match GetActivePlan w planId branch with
    | none => some w
    | some activePlan =>
      let filePath := (w.heap b).Path
      let w1 :=
        if !activePlan.IsBuildingByPath filePath then
          UpdateActivePlan w activePlan.Id activePlan.Branch (fun ap =>
            { ap with IsBuildingByPath := setKey ap.IsBuildingByPath filePath true })
        else w
      match env.loadBuildFile (w1.heap b) with
      | .error err =>
        some (emit w1 (.onBuildFileError ("error loading build file: " ++ err)))
      | .ok (build, currentPlanState) =>
        let fileState : activeBuildStreamFileState :=
          { activeBuildStreamState := buildState, filePath := filePath, activeBuild := b,
            build := build, currentPlanState := currentPlanState }
        match resolvePreBuildState w1 fileState with
        | none => none
        | some fileState =>
          let w2 :=
            if !(w1.heap b).IsFileOperation && !fileState.isNewFile then
              emit w1 (.stream { Path := filePath, NumTokens := 0, Finished := false })
            else w1
          some (buildFile env w2 fileState)

/-! ## Build -/

/-- Modelled from the spec: the status constant `shared.PlanStatusBuilding` of the
"building" state a plan is moved to. -/
def PlanStatusBuilding : String := "building"

/-- Results of the collaborators of `Build` for one run: the pending builds by path
that `loadPendingBuilds` returns (a Go map, kept as the list of its entries in the
order the `range` loop visits them) or its error, and the error (if any) of
`db.SetPlanStatus`. -/
structure BuildEnv where
  loadPendingBuilds : Except String (List (String × List Nat))
  setPlanStatus : Option String

/-- The closure `streamDone` of `Build`. -/
def Build.streamDone (w : World) (planId branch : String) : World :=
  match GetActivePlan w planId branch with
  | some _ => emit w (.streamDone planId branch)
  | none => w

/-- The function `Build`; `state` is the stream state it assembles from its
arguments. The result is the world with the calls made, the count and the error
returned. -/
def Build (benv : BuildEnv) (w : World) (state : activeBuildStreamState) :
    World × Int × Option String :=
  let planId := state.planId
  let branch := state.branch
  let onErr := fun (w : World) (err : String) =>
    (Build.streamDone w planId branch, (0 : Int), some err)
  match benv.loadPendingBuilds with
  | .error err => onErr w err
  | .ok pendingBuildsByPath =>
    if pendingBuildsByPath.length = 0 then
      (Build.streamDone w planId branch, 0, none)
    else
      let w1 := emit w (.setPlanStatus planId branch PlanStatusBuilding)
      match benv.setPlanStatus with
      | some err => onErr w1 ("error setting plan status to building: " ++ err)
      | none =>
        let w2 := pendingBuildsByPath.foldl
          (fun acc pendingBuilds => emit acc (.spawnQueueBuilds pendingBuilds.2)) w1
        (w2, (pendingBuildsByPath.length : Int), none)

/-! ## Advancing the queue of a path -/

/-- Modelled from the spec: the build `buildNextInQueue` picks. `buildNextInQueue` is
defined with the other completion callbacks of the file state. The worker of a path
takes the builds of `BuildQueuesByPath[filePath]` in FIFO order: the next build is
the first one in the queue that has not finished. -/
def nextBuildInQueue (w : World) (planId branch filePath : String) : Option Nat :=
  match GetActivePlan w planId branch with
  | none => none
  | some active =>
    (active.BuildQueuesByPath filePath).find? (fun b => !(w.heap b).Success)

/-- Modelled from the spec: `buildNextInQueue` starts `execPlanBuild` on the next
build of the path, if there is one. -/
def buildNextInQueue (w : World) (state : activeBuildStreamState) (filePath : String) :
    World :=
  match nextBuildInQueue w state.planId state.branch filePath with
  | none => w
  | some b => emit w (.spawnExecPlanBuild b)

/-- The queue-draining calls recorded in a trace, in call order. -/
def queueBuildsSpawned (t : List Event) : List (List Nat) :=
  t.filterMap (fun e => match e with
    | .spawnQueueBuilds builds => some builds
    | _ => none)

/-- The stream-done signals recorded in a trace. -/
def streamDoneCount (t : List Event) : Nat :=
  (t.filter (fun e => match e with
    | .streamDone _ _ => true
    | _ => false)).length

/-! ## formatModelContext -/

/-- Modelled from the spec: the context-type constant of file contexts
(`shared.ContextFileType`). Only that the four constants differ is used. -/
def ContextFileType : String := "file"

/-- Modelled from the spec: the context-type constant of directory trees
(`shared.ContextDirectoryTreeType`). -/
def ContextDirectoryTreeType : String := "directory tree"

/-- Modelled from the spec: the context-type constant of repository maps
(`shared.ContextMapType`). -/
def ContextMapType : String := "map"

/-- Modelled from the spec: the context-type constant of images
(`shared.ContextImageType`). -/
def ContextImageType : String := "image"

/-- The subtask being implemented (`db.Subtask`); only the field read here. -/
structure Subtask where
  UsesFiles : List String := []
  deriving DecidableEq, Repr

/-- Which statement of `formatModelContext` produced a context message: one of the
format strings of the first loop (`unset` is the zero value of `fmtStr`), the loop
over the current plan files, or one of the three messages of the exec section. -/
inductive EntrySource where
  /-- The format string of a directory tree. -/
  | directoryTree
  /-- The format string of a file context part. -/
  | file
  /-- The format string of a map. -/
  | map
  /-- The format string of a part with a URL. -/
  | url
  /-- The format string of any other part that is not an image. -/
  | other
  /-- No format string was assigned. -/
  | unset
  /-- The message of a current plan file that is not in the context. -/
  | planFile
  /-- The result of `ExecHistory()`. -/
  | execHistory
  /-- The heading of the script section. -/
  | applyScriptHeading
  /-- The message holding the `_apply.sh` script. -/
  | applyScript
  deriving DecidableEq, Repr

/-- One element appended to `contextMessages`, with the two arguments of its format
string: the label (a path, a URL or a name) and the body. -/
structure ContextEntry where
  source : EntrySource
  label : String := ""
  body : String := ""
  deriving DecidableEq, Repr

/-- The text of a context message: `fmt.Sprintf` of its format string on the label
and the body. -/
def ContextEntry.message (e : ContextEntry) : String :=
  match e.source with
  | .directoryTree => "\n\n- " ++ e.label ++ " | directory tree:\n\n```\n" ++ e.body ++ "\n```"
  | .file => "\n\n- " ++ e.label ++ ":\n\n```\n" ++ e.body ++ "\n```"
  | .map => "\n\n- " ++ e.label ++ " | map:\n\n```\n" ++ e.body ++ "\n```"
  | .url => "\n\n- " ++ e.label ++ ":\n\n```\n" ++ e.body ++ "\n```"
  | .other => "\n\n- content" ++ e.label ++ ":\n\n```\n" ++ e.body ++ "\n```"
  | .unset => ""
  | .planFile => "\n\n- " ++ e.label ++ ":\n\n```\n" ++ e.body ++ "\n```"
  | .execHistory => e.body
  | .applyScriptHeading => "*Current* state of _apply.sh script:"
  | .applyScript => "\n\n- " ++ e.label ++ ":\n\n```\n" ++ e.body ++ "\n```"

/-- The text `fmt.Sprintf(fmtStr, "")` whose tokens are charged as the overhead of a
context part: the format string with an empty first argument and the second one
missing. -/
def formatOverhead (source : EntrySource) : String :=
  match source with
  | .unset => "%!(EXTRA string=)"
  | s => ({ source := s, label := "", body := "%!s(MISSING)" } : ContextEntry).message

/-- The fields of `activeTellStreamState` that `formatModelContext` reads. -/
structure activeTellStreamState where
  modelContext : List Context := []
  currentPlanState : CurrentPlanState := {}
  currentSubtask : Option Subtask := none
  deriving DecidableEq, Repr

/-- Results of the collaborators of `formatModelContext`: the tokenizer
`shared.GetNumTokens` and the text `currentPlanState.ExecHistory()` returns. -/
structure TellEnv where
  getNumTokens : String → Except String Int
  execHistory : String

/-- One iteration of the first loop of `formatModelContext` on the accumulated
`contextMessages` (without the header), `numTokens` and `addedFilesSet`. The error is
the one the function returns. -/
def contextPartStep (env : TellEnv) (planFiles : Option CurrentPlanFiles)
    (includeMaps includeTrees isImplementationStage : Bool) (uses : String → Bool)
    (acc : List ContextEntry × Int × List String) (part : Context) :
    Except String (List ContextEntry × Int × List String) :=
  if isImplementationStage && decide (part.ContextType = ContextFileType)
      && !uses part.FilePath then
    .ok acc
  else
    let selected : Option (ContextEntry × List String) :=
      if part.ContextType = ContextDirectoryTreeType then
        if !includeTrees then none
        else some ({ source := .directoryTree, label := part.FilePath, body := part.Body },
          acc.2.2)
      else if part.ContextType = ContextFileType then
        let body :=
          match planFiles with
          | some files =>
            match files.Files.lookup part.FilePath with
            | some res => res
            | none => part.Body
          | none => part.Body
        some ({ source := .file, label := part.FilePath, body := body },
          part.FilePath :: acc.2.2)
      else if part.ContextType = ContextMapType then
        if !includeMaps then none
        else some ({ source := .map, label := part.FilePath, body := part.Body }, acc.2.2)
      else if part.Url ≠ "" then
        some ({ source := .url, label := part.Url, body := part.Body }, acc.2.2)
      else if part.ContextType ≠ ContextImageType then
        some ({ source := .other, label := part.Name, body := part.Body }, acc.2.2)
      else
        some ({ source := .unset }, acc.2.2)
    match selected with
    | none => .ok acc
    | some (entry, addedFilesSet) =>
      if part.ContextType = ContextImageType then
        .ok (acc.1, acc.2.1 + part.NumTokens, addedFilesSet)
      else
        match env.getNumTokens (formatOverhead entry.source) with
        | .error err =>
          .error ("failed to get the number of tokens in the context: " ++ err)
        | .ok numContextTokens =>
          .ok (acc.1 ++ [entry], acc.2.1 + (part.NumTokens + numContextTokens),
            addedFilesSet)

/-- The first loop of `formatModelContext`, over `state.modelContext`. -/
def contextPartsLoop (env : TellEnv) (planFiles : Option CurrentPlanFiles)
    (includeMaps includeTrees isImplementationStage : Bool) (uses : String → Bool) :
    List Context → List ContextEntry × Int × List String →
      Except String (List ContextEntry × Int × List String)
  | [], acc => .ok acc
  | part :: rest, acc =>
    match contextPartStep env planFiles includeMaps includeTrees isImplementationStage
        uses acc part with
    | .error err => .error err
    | .ok acc1 =>
      contextPartsLoop env planFiles includeMaps includeTrees isImplementationStage uses
        rest acc1

/-- The second loop of `formatModelContext`: the messages of the current plan files
that were not added from the context, in the order the `range` loop visits the
entries of the map. -/
def planFilesLoop (isImplementationStage : Bool) (uses : String → Bool)
    (addedFilesSet : List String) (files : List (String × String)) : List ContextEntry :=
  files.filterMap (fun entry =>
    if !addedFilesSet.contains entry.1 then
      if isImplementationStage && !uses entry.1 then none
      else if entry.1 = "_apply.sh" then none
      else some { source := .planFile, label := entry.1, body := entry.2 }
    else none)

/-- The three messages appended when `execEnabled` holds. -/
def execSection (env : TellEnv) (files : CurrentPlanFiles) : List ContextEntry :=
  let scriptContent :=
    match files.Files.lookup "_apply.sh" with
    | some content => if content = "" then "[empty]" else content
    | none => "[empty]"
  [{ source := .execHistory, body := env.execHistory },
   { source := .applyScriptHeading },
   { source := .applyScript, label := "_apply.sh", body := scriptContent }]

/-- The messages `formatModelContext` appends after the header, with the token count,
or the error it returns. `none` is a nil dereference: of `state.currentSubtask` in
the implementation stage, or of `state.currentPlanState.CurrentPlanFiles` at the
second loop. -/
def formatModelContextEntries (env : TellEnv) (state : activeTellStreamState)
    (includeMaps includeTrees isImplementationStage execEnabled : Bool) :
    Option (Except String (List ContextEntry × Int)) :=
  let usesOrNil : Option (String → Bool) :=
    if isImplementationStage then
      state.currentSubtask.map (fun subtask => fun path => decide (path ∈ subtask.UsesFiles))
    else some (fun _ => false)
  match usesOrNil with
  | none => none
  | some uses =>
    match contextPartsLoop env state.currentPlanState.CurrentPlanFiles includeMaps
        includeTrees isImplementationStage uses state.modelContext ([], 0, []) with
    | .error err => some (.error err)
    | .ok (contextMessages, numTokens, addedFilesSet) =>
      match state.currentPlanState.CurrentPlanFiles with
      | none => none
      | some files =>
        let withPlanFiles := contextMessages
          ++ planFilesLoop isImplementationStage uses addedFilesSet files.Files
        let withExec :=
          if execEnabled then withPlanFiles ++ execSection env files else withPlanFiles
        some (.ok (withExec, numTokens))

/-- The method `formatModelContext`: the messages joined after the header, the token
count and the error. `none` is a nil dereference. -/
def formatModelContext (env : TellEnv) (state : activeTellStreamState)
    (includeMaps includeTrees isImplementationStage execEnabled : Bool) :
    Option (String × Int × Option String) :=
  (formatModelContextEntries env state includeMaps includeTrees isImplementationStage
      execEnabled).map (fun r =>
    match r with
    | .error err => ("", 0, some err)
    | .ok (entries, numTokens) =>
      (String.intercalate "\n### END OF CONTEXT ###\n"
          ("### LATEST PLAN CONTEXT ###" :: entries.map ContextEntry.message),
        numTokens, none))

/-! ## DeleteOrgUserHandler -/

/-- The status `http.StatusForbidden`. -/
def StatusForbidden : Nat := 403

/-- The status `http.StatusInternalServerError`. -/
def StatusInternalServerError : Nat := 500

/-- The authenticated user (`auth.User`); only the fields read here. -/
structure AuthUser where
  Id : String := ""
  Email : String := ""
  deriving DecidableEq, Repr

/-- The result of `Authenticate` (`types.ServerAuth`); only the fields read here. -/
structure ServerAuth where
  OrgId : String := ""
  User : AuthUser := {}
  deriving DecidableEq, Repr

/-- An org row (`db.Org`); only the field read here. -/
structure Org where
  IsTrial : Bool := false
  deriving DecidableEq, Repr

/-- A membership row (`db.OrgUser`); only the fields read here. -/
structure OrgUser where
  UserId : String := ""
  OrgRoleId : String := ""
  deriving DecidableEq, Repr

/-- An invite row (`db.Invite`); only the fields read here. -/
structure Invite where
  Id : String := ""
  Email : String := ""
  deriving DecidableEq, Repr

/-- How the handler answers the request. -/
inductive Reply where
  /-- The call `writeApiError` with an `ApiError` of this type, status and message. -/
  | apiError (type : String) (status : Nat) (msg : String)
  /-- The call `http.Error` with this message and status. -/
  | httpError (msg : String) (status : Nat)
  /-- The handler returns because `Authenticate` returned nil; `Authenticate` has
  answered the request itself. -/
  | byAuthenticate
  /-- The handler returns at its end without writing a body. -/
  | done
  deriving DecidableEq, Repr

/-- Modelled from the spec: the status code the handler itself writes. `writeApiError`
answers with the status of the `ApiError`; nothing is known of what `Authenticate`
wrote, and the final return writes no status of its own. -/
def Reply.status : Reply → Option Nat
  | .apiError _ status _ => some status
  | .httpError _ status => some status
  | .byAuthenticate => none
  | .done => none

/-- The calls of the transaction phase of the handler, in call order. -/
inductive DbCall where
  /-- The call `db.Conn.Beginx()`. -/
  | beginx
  /-- The call `db.DeleteOrgUser(orgId, userId, tx)`. -/
  | deleteOrgUser (orgId userId : String)
  /-- The call `db.GetActiveInviteByEmail(orgId, email)`. -/
  | getActiveInviteByEmail (orgId email : String)
  /-- The call `db.DeleteInvite(inviteId, tx)`. -/
  | deleteInvite (inviteId : String)
  /-- The call `tx.Commit()`. -/
  | commit
  /-- The deferred call `tx.Rollback()`. -/
  | rollback
  deriving DecidableEq, Repr

/-- The request and the results of the collaborators of `DeleteOrgUserHandler`: the
two environment variables, what `Authenticate` returns, the `userId` route variable,
the permission check of the authenticated user, and each storage call with its
error or result. -/
structure HandlerEnv where
  goenv : String := ""
  localMode : String := ""
  authenticate : Option ServerAuth
  userId : String
  permissionRemoveUser : String
  hasPermission : String → Bool
  getOrg : String → Except String Org
  getOrgUser : String → String → Except String OrgUser
  validateOrgMembership : String → String → Except String Bool
  getOrgOwnerRoleId : Except String String
  numUsersWithRole : String → String → Except String Int
  beginx : Option String := none
  deleteOrgUser : String → String → Option String
  getActiveInviteByEmail : String → String → Except String (Option Invite)
  deleteInvite : String → Option String
  commit : Option String := none

/-- The transaction phase of `DeleteOrgUserHandler`, from `db.Conn.Beginx()` on. The
deferred rollback runs on every return once the transaction is begun. -/
def deleteOrgUserTransaction (env : HandlerEnv) (auth : ServerAuth) (userId : String) :
    Reply × List DbCall :=
  match env.beginx with
  | some err =>
    (.httpError ("Error starting transaction: " ++ err) StatusInternalServerError,
      [.beginx])
  | none =>
    match env.deleteOrgUser auth.OrgId userId with
    | some err =>
      (.httpError ("Error deleting org user: " ++ err) StatusInternalServerError,
        [.beginx, .deleteOrgUser auth.OrgId userId, .rollback])
    | none =>
      match env.getActiveInviteByEmail auth.OrgId auth.User.Email with
      | .error err =>
        (.httpError ("Error getting invite for org user: " ++ err)
            StatusInternalServerError,
          [.beginx, .deleteOrgUser auth.OrgId userId,
           .getActiveInviteByEmail auth.OrgId auth.User.Email, .rollback])
      | .ok invite =>
        let deleted : Option String × List DbCall :=
          match invite with
          | some inv => (env.deleteInvite inv.Id, [.deleteInvite inv.Id])
          | none => (none, [])
        match deleted.1 with
        | some err =>
          (.httpError ("Error deleting invite: " ++ err) StatusInternalServerError,
            [.beginx, .deleteOrgUser auth.OrgId userId,
             .getActiveInviteByEmail auth.OrgId auth.User.Email] ++ deleted.2
              ++ [.rollback])
        | none =>
          match env.commit with
          | some err =>
            (.httpError ("Error committing transaction: " ++ err)
                StatusInternalServerError,
              [.beginx, .deleteOrgUser auth.OrgId userId,
               .getActiveInviteByEmail auth.OrgId auth.User.Email] ++ deleted.2
                ++ [.commit, .rollback])
          | none =>
            (.done,
              [.beginx, .deleteOrgUser auth.OrgId userId,
               .getActiveInviteByEmail auth.OrgId auth.User.Email] ++ deleted.2
                ++ [.commit, .rollback])

/-- The function `DeleteOrgUserHandler`: the answer and the calls of the transaction
phase. -/
def DeleteOrgUserHandler (env : HandlerEnv) : Reply × List DbCall :=
  if env.goenv = "development" ∧ env.localMode = "1" then
    (.apiError "ApiErrorTypeOther" StatusForbidden
      "Local mode is not supported for user management", [])
  else
    match env.authenticate with
    | none => (.byAuthenticate, [])
    | some auth =>
      match env.getOrg auth.OrgId with
      | .error err =>
        (.httpError ("Error getting org: " ++ err) StatusInternalServerError, [])
      | .ok org =>
        if org.IsTrial then
          (.apiError "ApiErrorTypeTrialActionNotAllowed" StatusForbidden
            "Trial user can't delete users", [])
        else
          let userId := env.userId
          match env.getOrgUser userId auth.OrgId with
          | .error err =>
            (.httpError ("Error getting org user: " ++ err) StatusInternalServerError, [])
          | .ok orgUser =>
            let removePermission := env.permissionRemoveUser ++ "|" ++ orgUser.OrgRoleId
            if !env.hasPermission removePermission then
              (.httpError ("User does not have permission to remove user with role: "
                ++ orgUser.OrgRoleId) StatusForbidden, [])
            else
              match env.validateOrgMembership userId auth.OrgId with
              | .error err =>
                (.httpError ("Error validating org membership: " ++ err)
                  StatusInternalServerError, [])
              | .ok isMember =>
                if !isMember then
                  (.httpError ("User " ++ userId ++ " is not a member of org "
                    ++ auth.OrgId) StatusForbidden, [])
                else
                  match env.getOrgOwnerRoleId with
                  | .error err =>
                    (.httpError ("Error getting org owner role id: " ++ err)
                      StatusInternalServerError, [])
                  | .ok orgOwnerRoleId =>
                    if orgUser.OrgRoleId = orgOwnerRoleId then
                      match env.numUsersWithRole auth.OrgId orgOwnerRoleId with
                      | .error err =>
                        (.httpError ("Error getting number of org owners: " ++ err)
                          StatusInternalServerError, [])
                      | .ok numOwners =>
                        if numOwners = 1 then
                          (.httpError "Cannot delete the only org owner" StatusForbidden, [])
                        else deleteOrgUserTransaction env auth userId
                    else deleteOrgUserTransaction env auth userId

/-- The invites deleted by the calls of a run, in call order. -/
def deletedInvites (calls : List DbCall) : List String :=
  calls.filterMap (fun c => match c with
    | .deleteInvite inviteId => some inviteId
    | _ => none)

/-- The org users deleted by the calls of a run, in call order. -/
def deletedOrgUsers (calls : List DbCall) : List (String × String) :=
  calls.filterMap (fun c => match c with
    | .deleteOrgUser orgId userId => some (orgId, userId)
    | _ => none)

/-- The emails for which a run looks up the active invite, in call order. -/
def inviteLookups (calls : List DbCall) : List (String × String) :=
  calls.filterMap (fun c => match c with
    | .getActiveInviteByEmail orgId email => some (orgId, email)
    | _ => none)

/-! ## The structured-edit pipeline -/

/-- Modelled from the spec: `buildStructuredEdits`, the structured-edit pipeline a
build is handed to when its pre-build state is not empty. Given the pre-build
content and the described change (the `FileContent` of the build) it produces the
final content; on success it persists a `PlanFileResult` of the path with that
content, on failure it calls the build-error path. How the final content is
computed from the two is the parameter `structuredEdit`. -/
def buildStructuredEdits (structuredEdit : String → String → Except String String)
    (w : World) (fileState : activeBuildStreamFileState) : World :=
  match structuredEdit fileState.preBuildState
      (w.heap fileState.activeBuild).FileContent with
  | .ok finalContent =>
    emit w (.onFinishBuildFile
      { OrgId := fileState.activeBuildStreamState.currentOrgId,
        PlanId := fileState.activeBuildStreamState.planId,
        PlanBuildId := fileState.build.Id,
        ConvoMessageId := fileState.build.ConvoMessageId,
        Path := fileState.filePath,
        Content := finalContent })
  | .error err => emit w (.onBuildFileError err)

/-! ## Observations on traces -/

/-- The `PlanFileResult` values handed to `onFinishBuildFile`, in call order. -/
def planFileResults (t : List Event) : List PlanFileResult :=
  t.filterMap (fun e => match e with
    | .onFinishBuildFile planRes => some planRes
    | _ => none)

/-- The progress messages streamed, in call order. -/
def streamed (t : List Event) : List BuildInfo :=
  t.filterMap (fun e => match e with
    | .stream info => some info
    | _ => none)

/-- The workers started, in call order. -/
def spawned (t : List Event) : List Nat :=
  t.filterMap (fun e => match e with
    | .spawnExecPlanBuild b => some b
    | _ => none)

/-- The errors handed to `onBuildFileError`, in call order. -/
def buildErrors (t : List Event) : List String :=
  t.filterMap (fun e => match e with
    | .onBuildFileError err => some err
    | _ => none)

/-- The builds reported through `onBuildProcessed`, in call order. -/
def processedBuilds (t : List Event) : List Nat :=
  t.filterMap (fun e => match e with
    | .onBuildProcessed b => some b
    | _ => none)

/-- The paths reverted through `db.RejectPlanFile`, in call order. -/
def rejectedPaths (t : List Event) : List String :=
  t.filterMap (fun e => match e with
    | .rejectPlanFile _ _ path => some path
    | _ => none)

/-! ## Sample state -/

/-- A plan with one file in context, whose worker of `a.go` is running the move
at pointer 0. -/
def samplePlan : ActivePlan :=
  { Id := "plan-1", Branch := "main",
    BuildQueuesByPath := fun q => if q = "a.go" then [0] else [],
    IsBuildingByPath := fun q => decide (q = "a.go"),
    ContextsByPath := fun q =>
      if q = "main.go" then some { FilePath := "main.go", Body := "package main" } else none,
    BuiltFiles := fun _ => false,
    DidEditFiles := false }

/-- Builds on the sample heap: a move, a remove, a reset, a new file, and two plain
builds of one path. -/
def sampleHeap : Nat → ActiveBuild
  | 0 => { ReplyId := "r1", Path := "a.go", IsMoveOp := true, MoveDestination := "b.go" }
  | 1 => { ReplyId := "r1", Path := "old.go", IsRemoveOp := true }
  | 2 => { ReplyId := "r1", Path := "main.go", IsResetOp := true }
  | 3 => { ReplyId := "r1", Path := "new.go", FileContent := "package fresh" }
  | 4 => { ReplyId := "r2", Path := "x.go", FileContent := "one" }
  | 5 => { ReplyId := "r3", Path := "x.go", FileContent := "two" }
  | _ => {}

/-- A world holding the sample plan under `plan-1` and `main`. -/
def sampleWorld : World :=
  { activePlans := fun i b => if i = "plan-1" ∧ b = "main" then some samplePlan else none,
    heap := sampleHeap, nextPtr := 6, trace := [] }

/-- The stream state of the sample plan. -/
def sampleState : activeBuildStreamState :=
  { currentOrgId := "org-1", currentUserId := "user-1", planId := "plan-1", branch := "main" }

/-- The plan-file view of the sample plan: `a.go` and `b.go` are in the plan. -/
def sampleFiles : CurrentPlanFiles :=
  { Files := [("a.go", "package a"), ("b.go", "package b")] }

/-- An environment in which every collaborator succeeds. -/
def sampleEnv : Env :=
  { loadBuildFile := fun _ =>
      .ok ({ Id := "build-1", ConvoMessageId := "msg-1" },
           { CurrentPlanFiles := some sampleFiles }),
    lockForActiveBuild := none,
    rejectPlanFile := none,
    unlockForActiveBuild := none,
    getNumTokensEstimate := fun s => s.length }

/-- The file state `execPlanBuild` sets up for the build at `b` on the sample heap. -/
def sampleFileState (b : Nat) : activeBuildStreamFileState :=
  { activeBuildStreamState := sampleState, filePath := (sampleHeap b).Path,
    activeBuild := b, build := { Id := "build-1", ConvoMessageId := "msg-1" },
    currentPlanState := { CurrentPlanFiles := some sampleFiles } }

/-- The file state of the sample move once its pre-build state is resolved. -/
def sampleMoveFileState : activeBuildStreamFileState :=
  { sampleFileState 0 with preBuildState := "package a" }

/-- An environment in which every collaborator succeeds and `x.go` is a plan file. -/
def sampleEnvEdit : Env :=
  { sampleEnv with
    loadBuildFile := fun _ =>
      .ok ({ Id := "build-3", ConvoMessageId := "msg-2" },
           { CurrentPlanFiles := some { Files := [("x.go", "package x")] } }) }

/-- A heap on which an edit of `a.go` was enqueued behind the move of `a.go`. -/
def sampleQueuedHeap : Nat → ActiveBuild
  | 0 => { ReplyId := "r1", Path := "a.go", IsMoveOp := true, MoveDestination := "b.go" }
  | 1 => { ReplyId := "r2", Path := "a.go", FileContent := "package a // edited" }
  | _ => {}

/-- A world in which the worker of `a.go` runs the move at pointer 0 while the edit at
pointer 1 waits behind it in the queue of `a.go`. -/
def sampleQueuedWorld : World :=
  { activePlans := fun i b =>
      if i = "plan-1" ∧ b = "main" then
        some { samplePlan with
          BuildQueuesByPath := fun q => if q = "a.go" then [0, 1] else [] }
      else none,
    heap := sampleQueuedHeap, nextPtr := 2, trace := [] }

/-- The file state of the move at pointer 0 of the queued world, once its pre-build
state is resolved. -/
def sampleQueuedMoveFileState : activeBuildStreamFileState :=
  { activeBuildStreamState := sampleState, filePath := "a.go", activeBuild := 0,
    build := { Id := "build-1", ConvoMessageId := "msg-1" },
    currentPlanState := { CurrentPlanFiles := some sampleFiles },
    preBuildState := "package a" }

/-- A `Build` environment with pending builds on two paths and a status update that
succeeds. -/
def sampleBuildEnv : BuildEnv :=
  { loadPendingBuilds := .ok [("x.go", [4, 5]), ("new.go", [3])],
    setPlanStatus := none }

/-- What the stage rule says a context part contributes outside the implementation
stage: a directory tree an entry exactly when `includeTrees`, a map an entry exactly
when `includeMaps`, an image nothing, and every file, URL or other part exactly one
entry; a file is shown with its current plan content when the plan has one. -/
def claimedPartEntry (files : CurrentPlanFiles) (includeMaps includeTrees : Bool)
    (part : Context) : Option ContextEntry :=
  if part.ContextType = ContextImageType then none
  else if part.ContextType = ContextDirectoryTreeType then
    if includeTrees then
      some { source := .directoryTree, label := part.FilePath, body := part.Body }
    else none
  else if part.ContextType = ContextMapType then
    if includeMaps then some { source := .map, label := part.FilePath, body := part.Body }
    else none
  else if part.ContextType = ContextFileType then
    some { source := .file, label := part.FilePath,
           body := (files.Files.lookup part.FilePath).getD part.Body }
  else if part.Url ≠ "" then
    some { source := .url, label := part.Url, body := part.Body }
  else
    some { source := .other, label := part.Name, body := part.Body }

/-- A tokenizer standing in for `shared.GetNumTokens`: one token per character. -/
def sampleTellEnv : TellEnv :=
  { getNumTokens := fun s => .ok s.length,
    execHistory := "no commands run" }

/-- A tell state in the implementation stage of a subtask that uses `main.go`: the
context holds `main.go`, `other.go`, a directory tree, a map, a note and an image;
the plan holds `util.go` and the `_apply.sh` script. -/
def sampleTellState : activeTellStreamState :=
  { modelContext :=
      [{ ContextType := ContextFileType, FilePath := "main.go", Body := "package main",
         NumTokens := 3 },
       { ContextType := ContextFileType, FilePath := "other.go", Body := "package other",
         NumTokens := 3 },
       { ContextType := ContextDirectoryTreeType, FilePath := "src", Body := "src/main.go",
         NumTokens := 4 },
       { ContextType := ContextMapType, FilePath := "src", Body := "func main",
         NumTokens := 2 },
       { ContextType := "note", Name := "todo", Body := "ship it", NumTokens := 2 },
       { ContextType := ContextImageType, Name := "logo.png", NumTokens := 85 }],
    currentPlanState :=
      { CurrentPlanFiles := some { Files := [("util.go", "package util"),
                                              ("_apply.sh", "go build")] } },
    currentSubtask := some { UsesFiles := ["main.go"] } }

/-- A tell state whose plan holds one file that is not in the context. -/
def samplePlanFileOnlyState : activeTellStreamState :=
  { modelContext := [],
    currentPlanState := { CurrentPlanFiles := some { Files := [("a.go", "package a")] } },
    currentSubtask := none }

/-- A tell state with one file in context and no plan-file view. -/
def sampleNoPlanFilesState : activeTellStreamState :=
  { modelContext :=
      [{ ContextType := ContextFileType, FilePath := "main.go", Body := "package main",
         NumTokens := 3 }],
    currentPlanState := { CurrentPlanFiles := none },
    currentSubtask := none }

/-- The email address of each user of the sample org. -/
def sampleUserEmail (userId : String) : String :=
  if userId = "u-admin" then "admin@acme.io"
  else if userId = "u-bob" then "bob@acme.io"
  else "owner@acme.io"

/-- A request by the admin `u-admin` of `org-1` to remove the member `u-bob`. The org
has one owner, `u-owner`; both the admin and `u-bob` have an active invite; every
storage call succeeds. -/
def sampleHandlerEnv : HandlerEnv :=
  { authenticate := some { OrgId := "org-1",
                           User := { Id := "u-admin", Email := sampleUserEmail "u-admin" } },
    userId := "u-bob",
    permissionRemoveUser := "remove_user",
    hasPermission := fun _ => true,
    getOrg := fun _ => .ok { IsTrial := false },
    getOrgUser := fun userId _ =>
      .ok { UserId := userId,
            OrgRoleId := if userId = "u-owner" then "role-owner" else "role-member" },
    validateOrgMembership := fun _ _ => .ok true,
    getOrgOwnerRoleId := .ok "role-owner",
    numUsersWithRole := fun _ _ => .ok 1,
    deleteOrgUser := fun _ _ => none,
    getActiveInviteByEmail := fun _ email =>
      .ok (if email = "admin@acme.io" then some { Id := "inv-admin", Email := email }
           else if email = "bob@acme.io" then some { Id := "inv-bob", Email := email }
           else none),
    deleteInvite := fun _ => none }

/-- The request of the admin to remove the only owner `u-owner`. -/
def sampleOwnerEnv : HandlerEnv :=
  { sampleHandlerEnv with userId := "u-owner" }

/-- The request of the admin to remove the only owner while the org cannot be read. -/
def sampleOwnerDbDownEnv : HandlerEnv :=
  { sampleOwnerEnv with getOrg := fun _ => .error "connection refused" }

theorem getActivePlan_update_same (w : World) (planId branch : String)
    (fn : ActivePlan → ActivePlan) :
    GetActivePlan (UpdateActivePlan w planId branch fn) planId branch =
      (GetActivePlan w planId branch).map fn := by
  simp [GetActivePlan, UpdateActivePlan]

theorem getActivePlan_update_isSome (w : World) (i b planId branch : String)
    (fn : ActivePlan → ActivePlan) (active : ActivePlan)
    (h : GetActivePlan w planId branch = some active) :
    ∃ active', GetActivePlan (UpdateActivePlan w i b fn) planId branch = some active' ∧
      (active' = active ∨ active' = fn active) := by
  simp only [GetActivePlan, UpdateActivePlan] at h ⊢
  by_cases hk : planId = i ∧ branch = b
  · obtain ⟨rfl, rfl⟩ := hk
    simp [h]
  · simp [hk, h]

theorem sampleWorld_active :
    GetActivePlan sampleWorld sampleState.planId sampleState.branch = some samplePlan := by
  simp [GetActivePlan, sampleWorld, sampleState]

/-! ## Shared lemmas on execPlanBuild and the branches of buildFile -/

/-- What `resolvePreBuildState` returns on an active plan with a loaded view. -/
theorem resolvePreBuildState_eq (w : World) (fileState : activeBuildStreamFileState)
    (active : ActivePlan) (files : CurrentPlanFiles)
    (hactive : GetActivePlan w fileState.activeBuildStreamState.planId
      fileState.activeBuildStreamState.branch = some active)
    (hfiles : fileState.currentPlanState.CurrentPlanFiles = some files) :
    resolvePreBuildState w fileState = some { fileState with
      isNewFile := (files.Files.lookup fileState.filePath).isNone
        && (active.ContextsByPath fileState.filePath).isNone,
      preBuildState := (files.Files.lookup fileState.filePath).getD
        (((active.ContextsByPath fileState.filePath).map Context.Body).getD ""),
      contextPart := active.ContextsByPath fileState.filePath } := by
  unfold resolvePreBuildState
  simp only [hactive, hfiles]
  cases hl : files.Files.lookup fileState.filePath with
  | some content => simp
  | none =>
    cases hc : active.ContextsByPath fileState.filePath with
    | some c => simp
    | none => simp

/-- With an active plan, a successful `loadBuildFile` and a loaded plan-file view,
`execPlanBuild` reaches `buildFile`: it returns the result of `buildFile` on a world
that differs from the initial one by the building flag of the path and by the
initial progress message (streamed for a build that is neither a file operation nor
a new file), with the file state resolved for the path of the build. -/
theorem execPlanBuild_reaches_buildFile (env : Env) (w : World)
    (state : activeBuildStreamState) (b : Nat) (active : ActivePlan) (build : PlanBuild)
    (currentPlanState : CurrentPlanState) (files : CurrentPlanFiles)
    (hactive : GetActivePlan w state.planId state.branch = some active)
    (hload : env.loadBuildFile (w.heap b) = .ok (build, currentPlanState))
    (hfiles : currentPlanState.CurrentPlanFiles = some files) :
    ∃ w1 active1 fs,
      execPlanBuild env w state (some b) = some (buildFile env w1 fs) ∧
      GetActivePlan w1 state.planId state.branch = some active1 ∧
      active1.ContextsByPath = active.ContextsByPath ∧
      w1.heap = w.heap ∧ w1.nextPtr = w.nextPtr ∧
      w1.trace = w.trace ++
        (if (w.heap b).IsFileOperation = false ∧ fs.isNewFile = false then
          [.stream { Path := (w.heap b).Path, NumTokens := 0, Finished := false }]
         else []) ∧
      fs.activeBuildStreamState = state ∧ fs.filePath = (w.heap b).Path ∧
      fs.activeBuild = b ∧ fs.build = build ∧
      fs.contextPart = active.ContextsByPath (w.heap b).Path ∧
      fs.preBuildState = (files.Files.lookup (w.heap b).Path).getD
        (((active.ContextsByPath (w.heap b).Path).map Context.Body).getD "") ∧
      fs.isNewFile = ((files.Files.lookup (w.heap b).Path).isNone
        && (active.ContextsByPath (w.heap b).Path).isNone) := by
  obtain ⟨active1, hget1, hctx1⟩ :
      ∃ active1,
        GetActivePlan
          (if (!active.IsBuildingByPath (w.heap b).Path) = true then
            UpdateActivePlan w active.Id active.Branch (fun ap =>
              { ap with IsBuildingByPath := setKey ap.IsBuildingByPath (w.heap b).Path true })
           else w) state.planId state.branch = some active1 ∧
        active1.ContextsByPath = active.ContextsByPath := by
    by_cases hb : (!active.IsBuildingByPath (w.heap b).Path) = true
    · rw [if_pos hb]
      obtain ⟨active', h1, h2⟩ := getActivePlan_update_isSome w active.Id active.Branch
        state.planId state.branch (fun ap =>
          { ap with IsBuildingByPath := setKey ap.IsBuildingByPath (w.heap b).Path true })
        active hactive
      refine ⟨active', h1, ?_⟩
      rcases h2 with h2 | h2 <;> rw [h2]
    · rw [if_neg hb]
      exact ⟨active, hactive, rfl⟩
  have hheap : ∀ q,
      (if (!active.IsBuildingByPath (w.heap b).Path) = true then
          UpdateActivePlan w active.Id active.Branch (fun ap =>
            { ap with IsBuildingByPath := setKey ap.IsBuildingByPath (w.heap b).Path true })
         else w).heap q = w.heap q := by
    intro q
    split <;> rfl
  have htrace :
      (if (!active.IsBuildingByPath (w.heap b).Path) = true then
          UpdateActivePlan w active.Id active.Branch (fun ap =>
            { ap with IsBuildingByPath := setKey ap.IsBuildingByPath (w.heap b).Path true })
         else w).trace = w.trace := by
    split <;> rfl
  have hnext :
      (if (!active.IsBuildingByPath (w.heap b).Path) = true then
          UpdateActivePlan w active.Id active.Branch (fun ap =>
            { ap with IsBuildingByPath := setKey ap.IsBuildingByPath (w.heap b).Path true })
         else w).nextPtr = w.nextPtr := by
    split <;> rfl
  generalize hw1 :
      (if (!active.IsBuildingByPath (w.heap b).Path) = true then
          UpdateActivePlan w active.Id active.Branch (fun ap =>
            { ap with IsBuildingByPath := setKey ap.IsBuildingByPath (w.heap b).Path true })
         else w) = w1 at hget1 hheap htrace hnext
  have hres := resolvePreBuildState_eq w1
    { activeBuildStreamState := state, filePath := (w.heap b).Path, activeBuild := b,
      build := build, currentPlanState := currentPlanState } active1 files hget1 hfiles
  have hexec : execPlanBuild env w state (some b) =
      some (buildFile env
        (if (!(w1.heap b).IsFileOperation && !((files.Files.lookup (w.heap b).Path).isNone
              && (active1.ContextsByPath (w.heap b).Path).isNone)) = true then
          emit w1 (.stream { Path := (w.heap b).Path, NumTokens := 0, Finished := false })
         else w1)
        { activeBuildStreamState := state, filePath := (w.heap b).Path, activeBuild := b,
          build := build, currentPlanState := currentPlanState,
          isNewFile := (files.Files.lookup (w.heap b).Path).isNone
            && (active1.ContextsByPath (w.heap b).Path).isNone,
          preBuildState := (files.Files.lookup (w.heap b).Path).getD
            (((active1.ContextsByPath (w.heap b).Path).map Context.Body).getD ""),
          contextPart := active1.ContextsByPath (w.heap b).Path }) := by
    simp only [execPlanBuild, hactive, hw1, hheap, hload, hres]
  refine ⟨_, active1, _, hexec, ?_, hctx1, ?_, ?_, ?_, rfl, rfl, rfl, rfl, ?_, ?_, ?_⟩
  · split <;> exact hget1
  · funext q
    split <;> exact hheap q
  · split <;> exact hnext
  · rw [hheap b, hctx1]
    generalize ((files.Files.lookup (w.heap b).Path).isNone
      && (active.ContextsByPath (w.heap b).Path).isNone) = isNew
    cases (w.heap b).IsFileOperation <;> cases isNew <;> simp [emit, htrace]
  · rw [hctx1]
  · rw [hctx1]
  · rw [hctx1]

/-- The remove branch of `buildFile`. -/
theorem buildFile_remove_eq (env : Env) (w : World) (fileState : activeBuildStreamFileState)
    (active : ActivePlan)
    (hactive : GetActivePlan w fileState.activeBuildStreamState.planId
      fileState.activeBuildStreamState.branch = some active)
    (hmove : (w.heap fileState.activeBuild).IsMoveOp = false)
    (hremove : (w.heap fileState.activeBuild).IsRemoveOp = true) :
    buildFile env w fileState =
      emit (emit w (.stream { Path := fileState.filePath, NumTokens := 0, Removed := true,
                              Finished := true }))
        (.onFinishBuildFile
          { OrgId := fileState.activeBuildStreamState.currentOrgId,
            PlanId := fileState.activeBuildStreamState.planId,
            PlanBuildId := fileState.build.Id,
            ConvoMessageId := fileState.build.ConvoMessageId,
            Path := fileState.filePath, Content := "", RemovedFile := true }) := by
  simp [buildFile, hactive, hmove, hremove]

/-- The reset branch of `buildFile`, by the outcomes of lock, revert and unlock. -/
theorem buildFile_reset_trace (env : Env) (w : World)
    (fileState : activeBuildStreamFileState) (active : ActivePlan)
    (hactive : GetActivePlan w fileState.activeBuildStreamState.planId
      fileState.activeBuildStreamState.branch = some active)
    (hmove : (w.heap fileState.activeBuild).IsMoveOp = false)
    (hremove : (w.heap fileState.activeBuild).IsRemoveOp = false)
    (hreset : (w.heap fileState.activeBuild).IsResetOp = true) :
    (buildFile env w fileState).trace = w.trace ++
      (match env.lockForActiveBuild, env.rejectPlanFile, env.unlockForActiveBuild with
       | some e, _, _ =>
         [.lockForActiveBuild fileState.build.Id,
          .onBuildFileError ("error locking active plan for reset: " ++ e)]
       | none, some e, _ =>
         [.lockForActiveBuild fileState.build.Id,
          .rejectPlanFile fileState.activeBuildStreamState.currentOrgId
            fileState.activeBuildStreamState.planId fileState.filePath,
          .unlockForActiveBuild,
          .onBuildFileError ("error rejecting plan file: " ++ e)]
       | none, none, some e =>
         [.lockForActiveBuild fileState.build.Id,
          .rejectPlanFile fileState.activeBuildStreamState.currentOrgId
            fileState.activeBuildStreamState.planId fileState.filePath,
          .unlockForActiveBuild,
          .onBuildFileError ("error unlocking active plan for reset: " ++ e)]
       | none, none, none =>
         [.lockForActiveBuild fileState.build.Id,
          .rejectPlanFile fileState.activeBuildStreamState.currentOrgId
            fileState.activeBuildStreamState.planId fileState.filePath,
          .unlockForActiveBuild,
          .stream { Path := fileState.filePath, NumTokens := 0, Finished := true,
                    Removed := fileState.contextPart.isNone },
          .sleep 200,
          .onBuildProcessed fileState.activeBuild]) := by
  cases hl : env.lockForActiveBuild <;> cases hr : env.rejectPlanFile <;>
    cases hu : env.unlockForActiveBuild <;>
    simp [buildFile, emit, hactive, hmove, hremove, hreset, hl, hr, hu]

/-- The new-file branch of `buildFile`. -/
theorem buildFile_newFile_eq (env : Env) (w : World)
    (fileState : activeBuildStreamFileState) (active : ActivePlan)
    (hactive : GetActivePlan w fileState.activeBuildStreamState.planId
      fileState.activeBuildStreamState.branch = some active)
    (hmove : (w.heap fileState.activeBuild).IsMoveOp = false)
    (hremove : (w.heap fileState.activeBuild).IsRemoveOp = false)
    (hreset : (w.heap fileState.activeBuild).IsResetOp = false)
    (hpre : fileState.preBuildState = "") :
    buildFile env w fileState =
      emit (emit w (.stream { Path := fileState.filePath, NumTokens := 0, Finished := true }))
        (.onFinishBuildFile
          { OrgId := fileState.activeBuildStreamState.currentOrgId,
            PlanId := fileState.activeBuildStreamState.planId,
            PlanBuildId := fileState.build.Id,
            ConvoMessageId := fileState.build.ConvoMessageId,
            Path := fileState.filePath,
            Content := (w.heap fileState.activeBuild).FileContent }) := by
  simp [buildFile, hactive, hmove, hremove, hreset, hpre]

/-- C1: with an active plan and a loaded plan-file view, `resolvePreBuildState`
returns a file state whose `contextPart` is `ContextsByPath[p]` in every case and
whose `preBuildState` and `isNewFile` follow the strict priority: the plan file when
`p` is a key of the current plan files (whatever the context holds), else the body of
the context entry, both with `isNewFile = false`, else the empty string with
`isNewFile = true`; no other field of the file state changes. -/
theorem resolvePreBuildState_priority (w : World) (fileState : activeBuildStreamFileState)
    (activePlan : ActivePlan) (files : CurrentPlanFiles)
    (hactive : GetActivePlan w fileState.activeBuildStreamState.planId
      fileState.activeBuildStreamState.branch = some activePlan)
    (hfiles : fileState.currentPlanState.CurrentPlanFiles = some files) :
    ∃ fs', resolvePreBuildState w fileState = some fs' ∧
      fs'.contextPart = activePlan.ContextsByPath fileState.filePath ∧
      (∀ content, files.Files.lookup fileState.filePath = some content →
        fs'.preBuildState = content ∧ fs'.isNewFile = false) ∧
      (files.Files.lookup fileState.filePath = none →
        ∀ c, activePlan.ContextsByPath fileState.filePath = some c →
          fs'.preBuildState = c.Body ∧ fs'.isNewFile = false) ∧
      (files.Files.lookup fileState.filePath = none →
        activePlan.ContextsByPath fileState.filePath = none →
          fs'.preBuildState = "" ∧ fs'.isNewFile = true) ∧
      fs'.filePath = fileState.filePath ∧ fs'.activeBuild = fileState.activeBuild ∧
      fs'.build = fileState.build ∧ fs'.currentPlanState = fileState.currentPlanState ∧
      fs'.activeBuildStreamState = fileState.activeBuildStreamState := by
  unfold resolvePreBuildState
  simp only [hactive, hfiles]
  cases hl : files.Files.lookup fileState.filePath with
  | some content => simp
  | none =>
    cases hc : activePlan.ContextsByPath fileState.filePath with
    | some c => simp
    | none => simp

/-- Witness for C1: `a.go` is a plan file of the sample plan, so its plan content is
the pre-build state. -/
theorem resolvePreBuildState_priority_witness :
    ∃ fs', resolvePreBuildState sampleWorld (sampleFileState 0) = some fs' ∧
      fs'.preBuildState = "package a" ∧ fs'.isNewFile = false ∧ fs'.contextPart = none := by
  obtain ⟨fs', h1, h2, h3, _⟩ :=
    resolvePreBuildState_priority sampleWorld (sampleFileState 0) samplePlan sampleFiles
      sampleWorld_active rfl
  refine ⟨fs', h1, (h3 "package a" (by decide)).1, (h3 "package a" (by decide)).2, ?_⟩
  rw [h2]
  simp [samplePlan, sampleFileState, sampleHeap]

/-! ## C2: queueBuild -/

/-- C2: on an active plan, `queueBuild b` leaves the queue of the path `p` of `b`
equal to its previous value with `b` appended at the end and every other queue
unchanged; when `IsBuildingByPath[p]` was already true no worker is started and no
building flag changes; otherwise `IsBuildingByPath[p]` becomes true, the flags of the
other paths are unchanged, and exactly one worker, the one of `b`, is started. -/
theorem queueBuild_appends_and_starts_one_worker (w : World)
    (state : activeBuildStreamState) (b : Nat) (active : ActivePlan)
    (hactive : GetActivePlan w state.planId state.branch = some active) :
    ∃ active', GetActivePlan (queueBuild w state b) state.planId state.branch = some active' ∧
      active'.BuildQueuesByPath (w.heap b).Path =
        active.BuildQueuesByPath (w.heap b).Path ++ [b] ∧
      (∀ q, q ≠ (w.heap b).Path →
        active'.BuildQueuesByPath q = active.BuildQueuesByPath q) ∧
      (active.IsBuildingByPath (w.heap b).Path = true →
        (queueBuild w state b).trace = w.trace ∧
        ∀ q, active'.IsBuildingByPath q = active.IsBuildingByPath q) ∧
      (active.IsBuildingByPath (w.heap b).Path = false →
        (queueBuild w state b).trace = w.trace ++ [.spawnExecPlanBuild b] ∧
        active'.IsBuildingByPath (w.heap b).Path = true ∧
        ∀ q, q ≠ (w.heap b).Path →
          active'.IsBuildingByPath q = active.IsBuildingByPath q) ∧
      (queueBuild w state b).heap = w.heap := by
  simp only [GetActivePlan] at hactive
  cases hb : active.IsBuildingByPath (w.heap b).Path with
  | true =>
    simp [queueBuild, queueBuildAppend, GetActivePlan, UpdateActivePlan, hactive, hb, setKey]
    intro q hq
    simp [hq]
  | false =>
    simp [queueBuild, queueBuildAppend, queueBuildSetFlag, queueBuildSpawn, emit,
      GetActivePlan, UpdateActivePlan, hactive, hb, setKey]
    constructor
    · intro q hq
      simp [hq]
    · intro q hq
      simp [hq]

/-- Witness for C2: queueing the first build of `x.go` on the idle sample plan. -/
theorem queueBuild_appends_and_starts_one_worker_witness :
    ∃ active', GetActivePlan (queueBuild sampleWorld sampleState 4) "plan-1" "main"
        = some active' ∧
      active'.BuildQueuesByPath "x.go" = [4] ∧
      active'.IsBuildingByPath "x.go" = true ∧
      (queueBuild sampleWorld sampleState 4).trace = [.spawnExecPlanBuild 4] := by
  obtain ⟨active', h1, h2, _, _, h5, _⟩ :=
    queueBuild_appends_and_starts_one_worker sampleWorld sampleState 4 samplePlan
      sampleWorld_active
  exact ⟨active', h1, h2, (h5 rfl).2.1, (h5 rfl).1⟩

/-! ## C3: interleaved queueBuild calls -/

/-- A single `queueBuild` call is its three atomic steps taken back to back. -/
theorem runSchedule_single_eq_queueBuild (w : World) (state : activeBuildStreamState)
    (b : Nat) :
    (runSchedule state w [{ activeBuild := b }] [0, 0, 0]).1 = queueBuild w state b := by
  cases ha : w.activePlans state.planId state.branch with
  | none =>
    simp [runSchedule, queueBuildStep, queueBuild, queueBuildAppend, GetActivePlan,
      UpdateActivePlan, ha]
  | some active =>
    cases hb : active.IsBuildingByPath (w.heap b).Path with
    | true =>
      simp [runSchedule, queueBuildStep, queueBuild, queueBuildAppend, GetActivePlan,
        UpdateActivePlan, ha, hb]
    | false =>
      simp [runSchedule, queueBuildStep, queueBuild, queueBuildAppend, queueBuildSetFlag,
        queueBuildSpawn, GetActivePlan, UpdateActivePlan, ha, hb]

/-- On any active plan whose flag for a path is false, two `queueBuild` calls for
that path whose steps alternate both start a worker, and the flag is already true
before the first of the two is started. -/
theorem runSchedule_alternating_starts_both (w : World) (state : activeBuildStreamState)
    (b1 b2 : Nat) (active : ActivePlan)
    (hactive : GetActivePlan w state.planId state.branch = some active)
    (hsame : (w.heap b2).Path = (w.heap b1).Path)
    (hidle : active.IsBuildingByPath (w.heap b1).Path = false) :
    (runSchedule state w [{ activeBuild := b1 }, { activeBuild := b2 }]
        [0, 1, 0, 1, 0, 1]).1.trace
      = w.trace ++ [.spawnExecPlanBuild b1, .spawnExecPlanBuild b2] ∧
    ∃ active', GetActivePlan (runSchedule state w [{ activeBuild := b1 }, { activeBuild := b2 }]
        [0, 1, 0]).1 state.planId state.branch = some active' ∧
      active'.IsBuildingByPath (w.heap b1).Path = true := by
  simp only [GetActivePlan] at hactive
  simp [runSchedule, queueBuildStep, queueBuildAppend, queueBuildSetFlag, queueBuildSpawn,
    emit, GetActivePlan, UpdateActivePlan, setKey, hactive, hsame, hidle]

/-- C3: two `queueBuild` calls for `x.go` interleaved step by step on the idle sample
plan. Both calls read the flag as false before either sets it, so after the first
call has set `IsBuildingByPath["x.go"]` the second sets it again and both start a
worker: two workers for `x.go` are started while the flag is true, one for each
build, and both builds sit in the queue. -/
theorem queueBuild_interleaved_starts_two_workers :
    (runSchedule sampleState sampleWorld
        [{ activeBuild := 4 }, { activeBuild := 5 }] [0, 1, 0]).1.trace = [] ∧
    ((GetActivePlan (runSchedule sampleState sampleWorld
        [{ activeBuild := 4 }, { activeBuild := 5 }] [0, 1, 0]).1 "plan-1" "main").map
          (fun active => active.IsBuildingByPath "x.go")) = some true ∧
    (runSchedule sampleState sampleWorld
        [{ activeBuild := 4 }, { activeBuild := 5 }] [0, 1, 0, 1, 0, 1]).1.trace
      = [.spawnExecPlanBuild 4, .spawnExecPlanBuild 5] ∧
    ((GetActivePlan (runSchedule sampleState sampleWorld
        [{ activeBuild := 4 }, { activeBuild := 5 }] [0, 1, 0, 1, 0, 1]).1 "plan-1" "main").map
          (fun active => (active.IsBuildingByPath "x.go", active.BuildQueuesByPath "x.go")))
      = some (true, [4, 5]) ∧
    (runSchedule sampleState sampleWorld
        [{ activeBuild := 4 }, { activeBuild := 5 }] [0, 1, 0, 1, 0, 1]).2
      = [{ activeBuild := 4, pc := .returned }, { activeBuild := 5, pc := .returned }] := by
  decide

/-! ## C4: the move branch of buildFile -/

/-- C4: for a move build `m` at a valid pointer, with source path `a` (the path of the
file state), destination `d` and resolved pre-build content `C`, `buildFile`
allocates exactly two builds, first the remove build of `a` and then the plain build
of `d` carrying `C` with zero tokens, both with the reply id of `m`; appends the
first to the queue of `a` and then the second to the queue of `d`; sets
`m.Success`; leaves every other build untouched; sets `IsBuildingByPath[a]` to
false and `BuiltFiles[a]` to true; and calls `buildNextInQueue` for `a` last. Beyond
the workers `queueBuild` starts it makes no other call: no progress message and no
`onFinishBuildFile`. -/
theorem buildFile_move_decomposes (env : Env) (w : World) (fileState : activeBuildStreamFileState)
    (active : ActivePlan)
    (hactive : GetActivePlan w fileState.activeBuildStreamState.planId
      fileState.activeBuildStreamState.branch = some active)
    (hmove : (w.heap fileState.activeBuild).IsMoveOp = true)
    (hpath : fileState.filePath = (w.heap fileState.activeBuild).Path)
    (hvalid : fileState.activeBuild < w.nextPtr) :
    (buildFile env w fileState).nextPtr = w.nextPtr + 2 ∧
    (buildFile env w fileState).heap w.nextPtr =
      { ReplyId := (w.heap fileState.activeBuild).ReplyId,
        Path := (w.heap fileState.activeBuild).Path, IsRemoveOp := true } ∧
    (buildFile env w fileState).heap (w.nextPtr + 1) =
      { ReplyId := (w.heap fileState.activeBuild).ReplyId,
        Path := (w.heap fileState.activeBuild).MoveDestination,
        FileContent := fileState.preBuildState, FileContentTokens := 0 } ∧
    (buildFile env w fileState).heap fileState.activeBuild =
      { w.heap fileState.activeBuild with Success := true } ∧
    (∀ q, q < w.nextPtr → q ≠ fileState.activeBuild →
      (buildFile env w fileState).heap q = w.heap q) ∧
    (∃ active', GetActivePlan (buildFile env w fileState)
        fileState.activeBuildStreamState.planId
        fileState.activeBuildStreamState.branch = some active' ∧
      (∀ q, active'.BuildQueuesByPath q =
        active.BuildQueuesByPath q
          ++ (if q = (w.heap fileState.activeBuild).Path then [w.nextPtr] else [])
          ++ (if q = (w.heap fileState.activeBuild).MoveDestination
              then [w.nextPtr + 1] else [])) ∧
      active'.IsBuildingByPath (w.heap fileState.activeBuild).Path = false ∧
      active'.BuiltFiles (w.heap fileState.activeBuild).Path = true) ∧
    (buildFile env w fileState).trace =
      w.trace
        ++ (if active.IsBuildingByPath (w.heap fileState.activeBuild).Path = true then []
            else [.spawnExecPlanBuild w.nextPtr])
        ++ (if (w.heap fileState.activeBuild).MoveDestination
                = (w.heap fileState.activeBuild).Path
              ∨ active.IsBuildingByPath (w.heap fileState.activeBuild).MoveDestination = true
            then [] else [.spawnExecPlanBuild (w.nextPtr + 1)])
        ++ [.buildNextInQueue (w.heap fileState.activeBuild).Path] := by
  have hne1 : fileState.activeBuild ≠ w.nextPtr := Nat.ne_of_lt hvalid
  have hne2 : fileState.activeBuild ≠ w.nextPtr + 1 := by omega
  simp only [GetActivePlan] at hactive
  cases ha : active.IsBuildingByPath (w.heap fileState.activeBuild).Path <;>
  by_cases hd : (w.heap fileState.activeBuild).MoveDestination
      = (w.heap fileState.activeBuild).Path <;>
  cases hb : active.IsBuildingByPath (w.heap fileState.activeBuild).MoveDestination <;>
  simp [buildFile, alloc, queueBuilds, queueBuild, queueBuildAppend, queueBuildSetFlag,
    queueBuildSpawn, emit, GetActivePlan, UpdateActivePlan, setKey, setPtr, hactive, hmove,
    hpath, hne1, hne2, ha, hd, hb] <;>
  refine ⟨fun h => hne1 h.symm, fun h => hne2 h.symm, ?_, ?_⟩ <;>
  first
  | (intro q hq hqm
     have h1 : q ≠ w.nextPtr := by omega
     have h2 : q ≠ w.nextPtr + 1 := by omega
     simp [hqm, h1, h2])
  | (intro q
     by_cases hqa : q = (w.heap fileState.activeBuild).Path <;>
     by_cases hqd : q = (w.heap fileState.activeBuild).MoveDestination <;>
     simp_all)

/-- Witness for C4: the move of `a.go` to `b.go` on the sample plan, whose worker of
`a.go` is running. -/
theorem buildFile_move_decomposes_witness :
    (buildFile sampleEnv sampleWorld sampleMoveFileState).heap 6 =
      { ReplyId := "r1", Path := "a.go", IsRemoveOp := true } ∧
    (buildFile sampleEnv sampleWorld sampleMoveFileState).heap 7 =
      { ReplyId := "r1", Path := "b.go", FileContent := "package a" } ∧
    (buildFile sampleEnv sampleWorld sampleMoveFileState).trace =
      [.spawnExecPlanBuild 7, .buildNextInQueue "a.go"] := by
  have h := buildFile_move_decomposes sampleEnv sampleWorld sampleMoveFileState samplePlan
    sampleWorld_active rfl rfl (by decide)
  exact ⟨h.2.1, h.2.2.1, h.2.2.2.2.2.2⟩

/-! ## C5: running the two builds a move enqueues -/

/-- C6: for a build that is not a move, remove or reset, in a file state set up for
the path of the build whose resolved `preBuildState` is empty, `buildFile` makes
exactly two calls: it streams one `BuildInfo` for the path with `Finished = true`
and `Removed = false`, then calls `onFinishBuildFile` with a `PlanFileResult` whose
`Path` is the path of the build, whose `Content` is `activeBuild.FileContent` and
whose `RemovedFile` is false. `buildStructuredEdits` is not called, and no
`ActivePlan` field (so not `DidEditFiles`) and no build (so not `CurrentFileTokens`)
is written. -/
theorem buildFile_new_file_shortcut (env : Env) (w : World)
    (fileState : activeBuildStreamFileState) (active : ActivePlan)
    (hactive : GetActivePlan w fileState.activeBuildStreamState.planId
      fileState.activeBuildStreamState.branch = some active)
    (hmove : (w.heap fileState.activeBuild).IsMoveOp = false)
    (hremove : (w.heap fileState.activeBuild).IsRemoveOp = false)
    (hreset : (w.heap fileState.activeBuild).IsResetOp = false)
    (hpath : fileState.filePath = (w.heap fileState.activeBuild).Path)
    (hpre : fileState.preBuildState = "") :
    (buildFile env w fileState).trace = w.trace ++
      [.stream { Path := (w.heap fileState.activeBuild).Path, NumTokens := 0,
                 Removed := false, Finished := true },
       .onFinishBuildFile
          { OrgId := fileState.activeBuildStreamState.currentOrgId,
            PlanId := fileState.activeBuildStreamState.planId,
            PlanBuildId := fileState.build.Id,
            ConvoMessageId := fileState.build.ConvoMessageId,
            Path := (w.heap fileState.activeBuild).Path,
            Content := (w.heap fileState.activeBuild).FileContent,
            RemovedFile := false }] ∧
    (∀ path, Event.buildStructuredEdits path ∉ (buildFile env w fileState).trace.drop
      w.trace.length) ∧
    (buildFile env w fileState).activePlans = w.activePlans ∧
    (buildFile env w fileState).heap = w.heap ∧
    (buildFile env w fileState).directWrites = w.directWrites := by
  rw [buildFile_newFile_eq env w fileState active hactive hmove hremove hreset hpre, hpath]
  simp [emit]

/-- Witness for C6: the build of `new.go`, a path neither in the plan nor in context. -/
theorem buildFile_new_file_shortcut_witness :
    (buildFile sampleEnv sampleWorld (sampleFileState 3)).trace =
      [.stream { Path := "new.go", NumTokens := 0, Removed := false, Finished := true },
       .onFinishBuildFile
          { OrgId := "org-1", PlanId := "plan-1", PlanBuildId := "build-1",
            ConvoMessageId := "msg-1", Path := "new.go", Content := "package fresh",
            RemovedFile := false }] :=
  (buildFile_new_file_shortcut sampleEnv sampleWorld (sampleFileState 3) samplePlan
    sampleWorld_active rfl rfl rfl rfl rfl).1

/-! ## C7: remove builds -/

/-- C7: for a remove build on path `p`, whatever the plan files, the context and
`FileContent` hold, `execPlanBuild` (with an active plan and a successful
`loadBuildFile`) returns after exactly two calls: one `BuildInfo` streamed for `p`
with `Removed = true`, `Finished = true` and `NumTokens = 0`, then
`onFinishBuildFile` with one `PlanFileResult` for `p` with empty `Content` and
`RemovedFile = true`. -/
theorem execPlanBuild_remove (env : Env) (w : World) (state : activeBuildStreamState)
    (b : Nat) (active : ActivePlan) (build : PlanBuild)
    (currentPlanState : CurrentPlanState) (files : CurrentPlanFiles)
    (hactive : GetActivePlan w state.planId state.branch = some active)
    (hload : env.loadBuildFile (w.heap b) = .ok (build, currentPlanState))
    (hfiles : currentPlanState.CurrentPlanFiles = some files)
    (hmove : (w.heap b).IsMoveOp = false)
    (hremove : (w.heap b).IsRemoveOp = true) :
    ∃ w', execPlanBuild env w state (some b) = some w' ∧
      w'.trace = w.trace ++
        [.stream { Path := (w.heap b).Path, NumTokens := 0, Removed := true,
                   Finished := true },
         .onFinishBuildFile
          { OrgId := state.currentOrgId, PlanId := state.planId, PlanBuildId := build.Id,
            ConvoMessageId := build.ConvoMessageId, Path := (w.heap b).Path,
            Content := "", RemovedFile := true }] := by
  obtain ⟨w1, active1, fs, hexec, hget1, -, hheap, -, htrace, hst, hfp, hab, hbuild, -, -, -⟩ :=
    execPlanBuild_reaches_buildFile env w state b active build currentPlanState files
      hactive hload hfiles
  have hfo : (w.heap b).IsFileOperation = true := by
    simp [ActiveBuild.IsFileOperation, hremove]
  refine ⟨_, hexec, ?_⟩
  rw [buildFile_remove_eq env w1 fs active1 (by rw [hst]; exact hget1)
    (by rw [hab, hheap]; exact hmove) (by rw [hab, hheap]; exact hremove)]
  simp [emit, htrace, hfo, hst, hfp, hbuild]

/-- Witness for C7: the remove build of `old.go` on the sample plan. -/
theorem execPlanBuild_remove_witness :
    ∃ w', execPlanBuild sampleEnv sampleWorld sampleState (some 1) = some w' ∧
      w'.trace =
        [.stream { Path := "old.go", NumTokens := 0, Removed := true, Finished := true },
         .onFinishBuildFile
          { OrgId := "org-1", PlanId := "plan-1", PlanBuildId := "build-1",
            ConvoMessageId := "msg-1", Path := "old.go", Content := "",
            RemovedFile := true }] :=
  execPlanBuild_remove sampleEnv sampleWorld sampleState 1 samplePlan
    { Id := "build-1", ConvoMessageId := "msg-1" } { CurrentPlanFiles := some sampleFiles }
    sampleFiles sampleWorld_active rfl rfl rfl rfl

/-! ## C8: reset builds that succeed -/

/-- C8: for a reset build on path `p` whose lock, revert and unlock all succeed,
`execPlanBuild` (with an active plan and a successful `loadBuildFile`) makes
exactly these calls, in this order: lock, revert, unlock, one streamed `BuildInfo`
for `p` with `Finished = true` and `Removed` true exactly when `ContextsByPath` has
no entry for `p`, the fixed sleep, and one `onBuildProcessed` for the build. -/
theorem execPlanBuild_reset_ok (env : Env) (w : World) (state : activeBuildStreamState)
    (b : Nat) (active : ActivePlan) (build : PlanBuild)
    (currentPlanState : CurrentPlanState) (files : CurrentPlanFiles)
    (hactive : GetActivePlan w state.planId state.branch = some active)
    (hload : env.loadBuildFile (w.heap b) = .ok (build, currentPlanState))
    (hfiles : currentPlanState.CurrentPlanFiles = some files)
    (hmove : (w.heap b).IsMoveOp = false)
    (hremove : (w.heap b).IsRemoveOp = false)
    (hreset : (w.heap b).IsResetOp = true)
    (hlock : env.lockForActiveBuild = none)
    (hrevert : env.rejectPlanFile = none)
    (hunlock : env.unlockForActiveBuild = none) :
    ∃ w', execPlanBuild env w state (some b) = some w' ∧
      w'.trace = w.trace ++
        [.lockForActiveBuild build.Id,
         .rejectPlanFile state.currentOrgId state.planId (w.heap b).Path,
         .unlockForActiveBuild,
         .stream { Path := (w.heap b).Path, NumTokens := 0, Finished := true,
                   Removed := (active.ContextsByPath (w.heap b).Path).isNone },
         .sleep 200,
         .onBuildProcessed b] ∧
      ((active.ContextsByPath (w.heap b).Path).isNone = true ↔
        active.ContextsByPath (w.heap b).Path = none) := by
  obtain ⟨w1, active1, fs, hexec, hget1, -, hheap, -, htrace, hst, hfp, hab, hbuild, hctx,
      -, -⟩ :=
    execPlanBuild_reaches_buildFile env w state b active build currentPlanState files
      hactive hload hfiles
  have hfo : (w.heap b).IsFileOperation = true := by
    simp [ActiveBuild.IsFileOperation, hreset]
  refine ⟨_, hexec, ?_, Option.isNone_iff_eq_none⟩
  rw [buildFile_reset_trace env w1 fs active1 (by rw [hst]; exact hget1)
    (by rw [hab, hheap]; exact hmove) (by rw [hab, hheap]; exact hremove)
    (by rw [hab, hheap]; exact hreset)]
  simp [htrace, hfo, hst, hfp, hab, hbuild, hctx, hlock, hrevert, hunlock]

/-- Witness for C8: the reset of `main.go`, which has a context entry, so that the
message is not a removal. -/
theorem execPlanBuild_reset_ok_witness :
    ∃ w', execPlanBuild sampleEnv sampleWorld sampleState (some 2) = some w' ∧
      w'.trace =
        [.lockForActiveBuild "build-1",
         .rejectPlanFile "org-1" "plan-1" "main.go",
         .unlockForActiveBuild,
         .stream { Path := "main.go", NumTokens := 0, Finished := true, Removed := false },
         .sleep 200,
         .onBuildProcessed 2] := by
  obtain ⟨w', h1, h2, _⟩ := execPlanBuild_reset_ok sampleEnv sampleWorld sampleState 2
    samplePlan { Id := "build-1", ConvoMessageId := "msg-1" }
    { CurrentPlanFiles := some sampleFiles } sampleFiles sampleWorld_active rfl rfl rfl rfl
    rfl rfl rfl rfl
  exact ⟨w', h1, h2⟩

/-! ## C9: failures in the reset branch -/

/-- C9: in the reset branch of `buildFile`, writing `new` for the calls the function
makes: when the lock is not acquired, neither the revert nor the unlock is called;
when the lock is acquired, the unlock is called exactly once, whatever the revert
and the unlock return; and when any of lock, revert or unlock fails,
`onBuildFileError` is called exactly once, nothing is streamed and
`onBuildProcessed` is not called. -/
theorem buildFile_reset_failures (env : Env) (w : World)
    (fileState : activeBuildStreamFileState) (active : ActivePlan)
    (hactive : GetActivePlan w fileState.activeBuildStreamState.planId
      fileState.activeBuildStreamState.branch = some active)
    (hmove : (w.heap fileState.activeBuild).IsMoveOp = false)
    (hremove : (w.heap fileState.activeBuild).IsRemoveOp = false)
    (hreset : (w.heap fileState.activeBuild).IsResetOp = true) :
    (env.lockForActiveBuild ≠ none →
      rejectedPaths ((buildFile env w fileState).trace.drop w.trace.length) = [] ∧
      ((buildFile env w fileState).trace.drop w.trace.length).count
        .unlockForActiveBuild = 0) ∧
    (env.lockForActiveBuild = none →
      ((buildFile env w fileState).trace.drop w.trace.length).count
        .unlockForActiveBuild = 1) ∧
    ((env.lockForActiveBuild ≠ none ∨ env.rejectPlanFile ≠ none
        ∨ env.unlockForActiveBuild ≠ none) →
      (buildErrors ((buildFile env w fileState).trace.drop w.trace.length)).length = 1 ∧
      streamed ((buildFile env w fileState).trace.drop w.trace.length) = [] ∧
      processedBuilds ((buildFile env w fileState).trace.drop w.trace.length) = []) := by
  rw [buildFile_reset_trace env w fileState active hactive hmove hremove hreset]
  cases hl : env.lockForActiveBuild <;> cases hr : env.rejectPlanFile <;>
    cases hu : env.unlockForActiveBuild <;>
    simp [rejectedPaths, buildErrors, streamed, processedBuilds]

/-- Witness for C9: the reset of `main.go` when the revert fails. -/
theorem buildFile_reset_failures_witness :
    ((buildFile { sampleEnv with rejectPlanFile := some "db down" } sampleWorld
        (sampleFileState 2)).trace.drop sampleWorld.trace.length).count
          .unlockForActiveBuild = 1 ∧
    (buildErrors ((buildFile { sampleEnv with rejectPlanFile := some "db down" } sampleWorld
        (sampleFileState 2)).trace.drop sampleWorld.trace.length)).length = 1 ∧
    streamed ((buildFile { sampleEnv with rejectPlanFile := some "db down" } sampleWorld
        (sampleFileState 2)).trace.drop sampleWorld.trace.length) = [] ∧
    processedBuilds ((buildFile { sampleEnv with rejectPlanFile := some "db down" } sampleWorld
        (sampleFileState 2)).trace.drop sampleWorld.trace.length) = [] := by
  have h := buildFile_reset_failures { sampleEnv with rejectPlanFile := some "db down" }
    sampleWorld (sampleFileState 2) samplePlan sampleWorld_active rfl rfl rfl
  exact ⟨h.2.1 rfl, h.2.2 (Or.inr (Or.inl (by simp)))⟩

/-! ## C10: how many PlanFileResult values a build produces -/

/-- The move branch of `buildFile` never calls `onFinishBuildFile`. -/
theorem buildFile_move_planFileResults (env : Env) (w : World)
    (fileState : activeBuildStreamFileState) (active : ActivePlan)
    (hactive : GetActivePlan w fileState.activeBuildStreamState.planId
      fileState.activeBuildStreamState.branch = some active)
    (hmove : (w.heap fileState.activeBuild).IsMoveOp = true) :
    planFileResults (buildFile env w fileState).trace = planFileResults w.trace := by
  simp only [GetActivePlan] at hactive
  cases ha : active.IsBuildingByPath (w.heap fileState.activeBuild).Path <;>
  by_cases hd : (w.heap fileState.activeBuild).MoveDestination
      = (w.heap fileState.activeBuild).Path <;>
  cases hb : active.IsBuildingByPath (w.heap fileState.activeBuild).MoveDestination <;>
  simp [buildFile, alloc, queueBuilds, queueBuild, queueBuildAppend, queueBuildSetFlag,
    queueBuildSpawn, emit, GetActivePlan, UpdateActivePlan, setKey, setPtr, hactive, hmove,
    ha, hd, hb, planFileResults]

/-- C10, counterexample: the reset of `main.go` on the sample plan completes without
error (it ends with `onBuildProcessed`, with no `onBuildFileError`), and no
`PlanFileResult` is produced. -/
theorem reset_produces_no_planFileResult :
    (execPlanBuild sampleEnv sampleWorld sampleState (some 2)).map
        (fun w => (planFileResults w.trace, buildErrors w.trace, processedBuilds w.trace))
      = some ([], [], [2]) := by
  decide

/-- C10 as amended: on an active plan, a remove build and a new-file build each make
`buildFile` produce exactly one `PlanFileResult`; a reset build whose lock, revert
and unlock succeed produces none (it is reverted through `RejectPlanFile` and
reported through `onBuildProcessed`, once each); a move build produces none. -/
theorem buildFile_planFileResult_count (env : Env) (w : World)
    (fileState : activeBuildStreamFileState) (active : ActivePlan)
    (hactive : GetActivePlan w fileState.activeBuildStreamState.planId
      fileState.activeBuildStreamState.branch = some active) :
    ((w.heap fileState.activeBuild).IsMoveOp = false →
      (w.heap fileState.activeBuild).IsRemoveOp = true →
      ∃ planRes, planFileResults ((buildFile env w fileState).trace.drop w.trace.length)
          = [planRes] ∧ planRes.RemovedFile = true) ∧
    ((w.heap fileState.activeBuild).IsMoveOp = false →
      (w.heap fileState.activeBuild).IsRemoveOp = false →
      (w.heap fileState.activeBuild).IsResetOp = false →
      fileState.preBuildState = "" →
      ∃ planRes, planFileResults ((buildFile env w fileState).trace.drop w.trace.length)
          = [planRes] ∧ planRes.RemovedFile = false) ∧
    ((w.heap fileState.activeBuild).IsMoveOp = false →
      (w.heap fileState.activeBuild).IsRemoveOp = false →
      (w.heap fileState.activeBuild).IsResetOp = true →
      env.lockForActiveBuild = none → env.rejectPlanFile = none →
      env.unlockForActiveBuild = none →
      planFileResults ((buildFile env w fileState).trace.drop w.trace.length) = [] ∧
      rejectedPaths ((buildFile env w fileState).trace.drop w.trace.length)
        = [fileState.filePath] ∧
      processedBuilds ((buildFile env w fileState).trace.drop w.trace.length)
        = [fileState.activeBuild] ∧
      buildErrors ((buildFile env w fileState).trace.drop w.trace.length) = []) ∧
    ((w.heap fileState.activeBuild).IsMoveOp = true →
      planFileResults (buildFile env w fileState).trace = planFileResults w.trace) := by
  refine ⟨?_, ?_, ?_, ?_⟩
  · intro hmove hremove
    rw [buildFile_remove_eq env w fileState active hactive hmove hremove]
    simp [emit, planFileResults]
  · intro hmove hremove hreset hpre
    rw [buildFile_newFile_eq env w fileState active hactive hmove hremove hreset hpre]
    simp [emit, planFileResults]
  · intro hmove hremove hreset hl hr hu
    rw [buildFile_reset_trace env w fileState active hactive hmove hremove hreset]
    simp [hl, hr, hu, planFileResults, rejectedPaths, processedBuilds, buildErrors]
  · intro hmove
    exact buildFile_move_planFileResults env w fileState active hactive hmove

/-- Witness for C10: the remove build of `old.go` produces one result, a removal. -/
theorem buildFile_planFileResult_count_witness :
    ∃ planRes, planFileResults ((buildFile sampleEnv sampleWorld (sampleFileState 1)).trace.drop
        sampleWorld.trace.length) = [planRes] ∧ planRes.RemovedFile = true :=
  (buildFile_planFileResult_count sampleEnv sampleWorld (sampleFileState 1) samplePlan
    sampleWorld_active).1 rfl rfl

/-! ## C11: writes to ActivePlan fields -/

/-- The edit branch of `buildFile` assigns `DidEditFiles` through the reference
obtained from `GetActivePlan`: the write is logged as unguarded and reaches the
registry entry. -/
theorem buildFile_edit_direct_write (env : Env) (w : World)
    (fileState : activeBuildStreamFileState) (active : ActivePlan)
    (hactive : GetActivePlan w fileState.activeBuildStreamState.planId
      fileState.activeBuildStreamState.branch = some active)
    (hmove : (w.heap fileState.activeBuild).IsMoveOp = false)
    (hremove : (w.heap fileState.activeBuild).IsRemoveOp = false)
    (hreset : (w.heap fileState.activeBuild).IsResetOp = false)
    (hpre : fileState.preBuildState ≠ "") :
    (buildFile env w fileState).directWrites = w.directWrites ++ ["DidEditFiles"] ∧
    (GetActivePlan (buildFile env w fileState) fileState.activeBuildStreamState.planId
      fileState.activeBuildStreamState.branch).map (fun a => a.DidEditFiles) = some true := by
  simp only [GetActivePlan] at hactive
  simp [buildFile, emit, GetActivePlan, hactive, hmove, hremove, hreset, hpre]

/-- The writes of `queueBuild` are all made inside `UpdateActivePlan` callbacks. -/
theorem queueBuild_directWrites (w : World) (state : activeBuildStreamState) (b : Nat) :
    (queueBuild w state b).directWrites = w.directWrites := by
  unfold queueBuild queueBuildAppend
  simp only
  split
  · rfl
  · split <;> rfl

/-- C11: the plain build of `x.go` on the sample plan, when `x.go` is already a plan
file. `execPlanBuild` reaches the edit branch of `buildFile`, which sets
`DidEditFiles` through the reference obtained from `GetActivePlan`, outside any
`UpdateActivePlan` callback: the run ends with one unguarded write, of
`DidEditFiles`, and the flag of the plan is set. -/
theorem edit_build_writes_DidEditFiles_unguarded :
    (execPlanBuild sampleEnvEdit sampleWorld sampleState (some 4)).map
        (fun w => (w.directWrites,
          (GetActivePlan w "plan-1" "main").map (fun a => a.DidEditFiles),
          w.trace))
      = some (["DidEditFiles"], some true,
          [.stream { Path := "x.go", NumTokens := 0, Finished := false },
           .buildStructuredEdits "x.go"]) := by
  decide

/-! ## C12: Build -/

/-- The trace after the loop of `Build` that starts one `queueBuilds` per path. -/
theorem foldl_spawnQueueBuilds_trace (pending : List (String × List Nat)) (w : World) :
    (pending.foldl (fun acc pendingBuilds => emit acc (.spawnQueueBuilds pendingBuilds.2))
        w).trace
      = w.trace ++ pending.map (fun pendingBuilds => .spawnQueueBuilds pendingBuilds.2) := by
  induction pending generalizing w with
  | nil => simp
  | cons p rest ih =>
    rw [List.foldl_cons, ih]
    simp [emit]

/-- C12: `Build` returns a positive count with a nil error exactly when the pending
builds load, there is at least one pending path and the status update succeeds; the
count is then the number of entries of the pending map (its distinct paths), one
`queueBuilds` is started per path with the builds of that path, and stream-done is
not signalled. In every other case the count is 0, no `queueBuilds` and no worker is
started, and stream-done is signalled once if the active plan exists and not at all
otherwise. The error is nil with count 0 exactly when the pending map loads empty. -/
theorem Build_returns_count_or_signals_done (benv : BuildEnv) (w : World)
    (state : activeBuildStreamState) :
    ((0 < (Build benv w state).2.1 ∧ (Build benv w state).2.2 = none) ↔
      ∃ pending, benv.loadPendingBuilds = .ok pending ∧ pending ≠ []
        ∧ benv.setPlanStatus = none) ∧
    (∀ pending, benv.loadPendingBuilds = .ok pending → pending ≠ [] →
      benv.setPlanStatus = none →
        (Build benv w state).2.1 = pending.length ∧
        ((pending.map Prod.fst).Nodup →
          (Build benv w state).2.1 = ((pending.map Prod.fst).dedup).length) ∧
        queueBuildsSpawned ((Build benv w state).1.trace.drop w.trace.length)
          = pending.map Prod.snd ∧
        streamDoneCount ((Build benv w state).1.trace.drop w.trace.length) = 0) ∧
    ((¬ ∃ pending, benv.loadPendingBuilds = .ok pending ∧ pending ≠ []
        ∧ benv.setPlanStatus = none) →
      (Build benv w state).2.1 = 0 ∧
      queueBuildsSpawned ((Build benv w state).1.trace.drop w.trace.length) = [] ∧
      spawned ((Build benv w state).1.trace.drop w.trace.length) = [] ∧
      streamDoneCount ((Build benv w state).1.trace.drop w.trace.length)
        = if (GetActivePlan w state.planId state.branch).isSome then 1 else 0) ∧
    (((Build benv w state).2.2 = none ∧ (Build benv w state).2.1 = 0) ↔
      benv.loadPendingBuilds = .ok []) := by
  cases hload : benv.loadPendingBuilds with
  | error err =>
    cases hact : w.activePlans state.planId state.branch <;>
      simp [Build, Build.streamDone, emit, GetActivePlan, hload, hact, queueBuildsSpawned,
        spawned, streamDoneCount]
  | ok pending =>
    cases pending with
    | nil =>
      cases hact : w.activePlans state.planId state.branch <;>
        simp [Build, Build.streamDone, emit, GetActivePlan, hload, hact, queueBuildsSpawned,
          spawned, streamDoneCount]
    | cons p rest =>
      cases hstatus : benv.setPlanStatus with
      | some err =>
        cases hact : w.activePlans state.planId state.branch <;>
          simp [Build, Build.streamDone, emit, GetActivePlan, hload, hstatus, hact,
            queueBuildsSpawned, spawned, streamDoneCount]
      | none =>
        have htr := foldl_spawnQueueBuilds_trace (p :: rest)
          (emit w (.setPlanStatus state.planId state.branch PlanStatusBuilding))
        simp only [Build, hload, hstatus, List.length_cons, Nat.succ_ne_zero, if_false,
          Nat.add_one_ne_zero]
        rw [htr]
        refine ⟨?_, ?_, ?_, ?_⟩
        · constructor
          · intro _
            exact ⟨p :: rest, rfl, by simp, trivial⟩
          · intro _
            constructor
            · positivity
            · trivial
        · intro pending hp hne _
          cases hp
          refine ⟨by simp, ?_, ?_, ?_⟩
          · intro hnodup
            rw [List.Nodup.dedup hnodup]
            simp
          · simp only [emit, queueBuildsSpawned, List.append_assoc, List.drop_left,
              List.filterMap_append, List.filterMap_map, Function.comp_def]
            simp only [List.filterMap_cons, List.filterMap_nil, List.nil_append]
            exact List.filterMap_eq_map (f := fun x : String × List Nat => x.2) ▸ rfl
          · simp [emit, streamDoneCount, List.filter_map, Function.comp_def]
        · intro h
          exact absurd ⟨p :: rest, rfl, by simp, trivial⟩ h
        · constructor
          · intro h
            have := h.2
            simp at this
            omega
          · intro h
            cases h

/-- Witness for C12: two pending paths on the sample plan. -/
theorem Build_returns_count_or_signals_done_witness :
    (Build sampleBuildEnv sampleWorld sampleState).2.1 = 2 ∧
    queueBuildsSpawned ((Build sampleBuildEnv sampleWorld sampleState).1.trace.drop
      sampleWorld.trace.length) = [[4, 5], [3]] ∧
    streamDoneCount ((Build sampleBuildEnv sampleWorld sampleState).1.trace.drop
      sampleWorld.trace.length) = 0 := by
  have h := (Build_returns_count_or_signals_done sampleBuildEnv sampleWorld sampleState).2.1
    [("x.go", [4, 5]), ("new.go", [3])] rfl (by simp) rfl
  exact ⟨h.1, h.2.2.1, h.2.2.2⟩

/-! ## C16: the build that follows a move -/

/-- When the move is the only build in the queue of its path, the build that follows
it is the synthetic remove build: on the sample plan the queue of `a.go` becomes the
move and the remove build (pointer 6), and the queue advances to the latter. -/
theorem move_alone_is_followed_by_remove :
    (GetActivePlan (buildFile sampleEnv sampleWorld sampleMoveFileState)
        "plan-1" "main").map (fun a => a.BuildQueuesByPath "a.go") = some [0, 6] ∧
    nextBuildInQueue (buildFile sampleEnv sampleWorld sampleMoveFileState)
      "plan-1" "main" "a.go" = some 6 := by
  decide

/-- C16: the move of `a.go` on the queued sample plan, where an edit of `a.go` (pointer
1) was enqueued behind the move (pointer 0) before the move runs. After `buildFile`
the queue of `a.go` is the move, the edit, then the synthetic remove build (pointer
2); the move is finished, so the queue advances to the edit: the next build started
for `a.go` is the edit, not the remove build. -/
theorem move_is_followed_by_queued_edit :
    (GetActivePlan (buildFile sampleEnv sampleQueuedWorld sampleQueuedMoveFileState)
        "plan-1" "main").map (fun a => a.BuildQueuesByPath "a.go") = some [0, 1, 2] ∧
    (buildFile sampleEnv sampleQueuedWorld sampleQueuedMoveFileState).heap 2
      = { ReplyId := "r1", Path := "a.go", IsRemoveOp := true } ∧
    nextBuildInQueue (buildFile sampleEnv sampleQueuedWorld sampleQueuedMoveFileState)
      "plan-1" "main" "a.go" = some 1 ∧
    (buildNextInQueue (buildFile sampleEnv sampleQueuedWorld sampleQueuedMoveFileState)
        sampleState "a.go").trace
      = [.spawnExecPlanBuild 3, .buildNextInQueue "a.go", .spawnExecPlanBuild 1] := by
  decide

/-! ## Shared lemmas on formatModelContext -/

/-- Outside the implementation stage, with a loaded plan-file view and a tokenizer
that succeeds, one iteration of the first loop appends what the stage rule says. -/
theorem contextPartStep_claimed (env : TellEnv) (files : CurrentPlanFiles)
    (includeMaps includeTrees : Bool) (uses : String → Bool)
    (htok : ∀ s, ∃ n, env.getNumTokens s = .ok n)
    (acc : List ContextEntry × Int × List String) (part : Context) :
    ∃ n added, contextPartStep env (some files) includeMaps includeTrees false uses acc part
      = .ok (acc.1 ++ (claimedPartEntry files includeMaps includeTrees part).toList,
          n, added) := by
  obtain ⟨n1, h1⟩ := htok (formatOverhead .directoryTree)
  obtain ⟨n2, h2⟩ := htok (formatOverhead .file)
  obtain ⟨n3, h3⟩ := htok (formatOverhead .map)
  obtain ⟨n4, h4⟩ := htok (formatOverhead .url)
  obtain ⟨n5, h5⟩ := htok (formatOverhead .other)
  have d1 : ContextDirectoryTreeType ≠ ContextImageType := by decide
  have d2 : ContextFileType ≠ ContextImageType := by decide
  have d3 : ContextMapType ≠ ContextImageType := by decide
  have d4 : ContextFileType ≠ ContextDirectoryTreeType := by decide
  have d5 : ContextMapType ≠ ContextDirectoryTreeType := by decide
  have d6 : ContextFileType ≠ ContextMapType := by decide
  obtain ⟨msgs, n0, added0⟩ := acc
  unfold contextPartStep claimedPartEntry
  by_cases ht : part.ContextType = ContextDirectoryTreeType
  · cases includeTrees <;> simp [ht, d1, h1]
  · by_cases hf : part.ContextType = ContextFileType
    · cases hl : files.Files.lookup part.FilePath <;>
        simp [hf, d2, d4, d6, h2, hl]
    · by_cases hm : part.ContextType = ContextMapType
      · cases includeMaps <;> simp [hm, d3, d5, d6.symm, h3]
      · by_cases hi : part.ContextType = ContextImageType
        · by_cases hu : part.Url = "" <;>
            simp [hi, hu, d1.symm, d2.symm, d3.symm]
        · by_cases hu : part.Url = "" <;> simp [ht, hf, hm, hi, hu, h4, h5]

/-- Outside the implementation stage, with a loaded plan-file view and a tokenizer
that succeeds, the first loop appends, in the order of the parts, what the stage rule
says of each part. -/
theorem contextPartsLoop_claimed (env : TellEnv) (files : CurrentPlanFiles)
    (includeMaps includeTrees : Bool) (uses : String → Bool)
    (htok : ∀ s, ∃ n, env.getNumTokens s = .ok n) (parts : List Context) :
    ∀ acc : List ContextEntry × Int × List String,
      ∃ n added, contextPartsLoop env (some files) includeMaps includeTrees false uses
          parts acc
        = .ok (acc.1 ++ parts.filterMap (claimedPartEntry files includeMaps includeTrees),
            n, added) := by
  induction parts with
  | nil =>
    intro acc
    exact ⟨acc.2.1, acc.2.2, by simp [contextPartsLoop]⟩
  | cons part rest ih =>
    intro acc
    obtain ⟨n1, added1, hstep⟩ :=
      contextPartStep_claimed env files includeMaps includeTrees uses htok acc part
    obtain ⟨n2, added2, hrest⟩ :=
      ih (acc.1 ++ (claimedPartEntry files includeMaps includeTrees part).toList, n1, added1)
    refine ⟨n2, added2, ?_⟩
    rw [contextPartsLoop, hstep]
    simp only
    rw [hrest]
    cases hc : claimedPartEntry files includeMaps includeTrees part <;>
      simp [List.filterMap_cons, hc]

/-- The messages of the second loop are plan files, none of them `_apply.sh`, and in
the implementation stage each is a file the subtask uses. -/
theorem planFilesLoop_mem (isImplementationStage : Bool) (uses : String → Bool)
    (addedFilesSet : List String) (files : List (String × String)) (e : ContextEntry)
    (he : e ∈ planFilesLoop isImplementationStage uses addedFilesSet files) :
    e.source = .planFile ∧ e.label ≠ "_apply.sh" ∧
      (isImplementationStage = true → uses e.label = true) := by
  simp only [planFilesLoop, List.mem_filterMap] at he
  obtain ⟨entry, -, hentry⟩ := he
  simp at hentry
  obtain ⟨-, huse, hscript, rfl⟩ := hentry
  exact ⟨rfl, hscript, huse⟩

/-- The messages of the exec section: the history, the heading and the script. -/
theorem execSection_mem (env : TellEnv) (files : CurrentPlanFiles) (e : ContextEntry)
    (he : e ∈ execSection env files) :
    e.source = .execHistory ∨ e.source = .applyScriptHeading ∨
      (e.source = .applyScript ∧ e.label = "_apply.sh") := by
  simp only [execSection, List.mem_cons, List.mem_singleton, List.not_mem_nil, or_false] at he
  rcases he with h | h | h <;> simp [h]

/-! ## C15: contexts included before the implementation stage -/

/-- C15: outside the implementation stage, with a loaded plan-file view and a tokenizer
that succeeds, `formatModelContext` returns without error, and the messages after
the header begin with what the context parts contribute, in the order of
`modelContext`: a directory tree an entry exactly when `includeTrees`, a map an entry
exactly when `includeMaps`, an image nothing, every file, URL or other part exactly
one entry. The messages that follow come from the current plan files and the exec
section. The returned text is the header and these messages joined. -/
theorem formatModelContext_early_stage_entries (env : TellEnv)
    (state : activeTellStreamState) (files : CurrentPlanFiles)
    (includeMaps includeTrees execEnabled : Bool)
    (htok : ∀ s, ∃ n, env.getNumTokens s = .ok n)
    (hfiles : state.currentPlanState.CurrentPlanFiles = some files) :
    ∃ rest n,
      formatModelContextEntries env state includeMaps includeTrees false execEnabled
        = some (.ok (state.modelContext.filterMap
            (claimedPartEntry files includeMaps includeTrees) ++ rest, n)) ∧
      (∀ e ∈ rest, e.source = .planFile ∨ e.source = .execHistory
        ∨ e.source = .applyScriptHeading ∨ e.source = .applyScript) ∧
      formatModelContext env state includeMaps includeTrees false execEnabled
        = some (String.intercalate "\n### END OF CONTEXT ###\n"
            ("### LATEST PLAN CONTEXT ###" ::
              (state.modelContext.filterMap
                (claimedPartEntry files includeMaps includeTrees) ++ rest).map
                  ContextEntry.message), n, none) := by
  obtain ⟨n, added, hloop⟩ :=
    contextPartsLoop_claimed env files includeMaps includeTrees (fun _ => false) htok
      state.modelContext ([], 0, [])
  simp only [List.nil_append] at hloop
  refine ⟨planFilesLoop false (fun _ => false) added files.Files
      ++ (if execEnabled = true then execSection env files else []), n, ?_, ?_, ?_⟩
  · cases execEnabled <;> simp [formatModelContextEntries, hfiles, hloop]
  · intro e he
    rw [List.mem_append] at he
    rcases he with he | he
    · exact Or.inl (planFilesLoop_mem _ _ _ _ e he).1
    · cases execEnabled
      · simp at he
      · simp only [if_true] at he
        rcases execSection_mem env files e he with h | h | h
        · exact Or.inr (Or.inl h)
        · exact Or.inr (Or.inr (Or.inl h))
        · exact Or.inr (Or.inr (Or.inr h.1))
  · cases execEnabled <;>
      simp [formatModelContext, formatModelContextEntries, hfiles, hloop]

/-- Witness for C15: the sample context with trees included and maps left out. -/
theorem formatModelContext_early_stage_entries_witness :
    ∃ rest n,
      formatModelContextEntries sampleTellEnv sampleTellState false true false false
        = some (.ok (
            [{ source := .file, label := "main.go", body := "package main" },
             { source := .file, label := "other.go", body := "package other" },
             { source := .directoryTree, label := "src", body := "src/main.go" },
             { source := .other, label := "todo", body := "ship it" }] ++ rest, n)) := by
  obtain ⟨rest, n, h, -, -⟩ := formatModelContext_early_stage_entries sampleTellEnv
    sampleTellState { Files := [("util.go", "package util"), ("_apply.sh", "go build")] }
    false true false (fun s => ⟨s.length, rfl⟩) rfl
  exact ⟨rest, n, h⟩

/-- In the implementation stage, with a tokenizer that succeeds, one iteration of
the first loop succeeds, and a message it appends is not a plan-file or script
message and, when it is a file message, is of a file the subtask uses. -/
theorem contextPartStep_impl (env : TellEnv) (planFiles : Option CurrentPlanFiles)
    (includeMaps includeTrees : Bool) (uses : String → Bool)
    (htok : ∀ s, ∃ n, env.getNumTokens s = .ok n)
    (acc : List ContextEntry × Int × List String) (part : Context) :
    ∃ acc', contextPartStep env planFiles includeMaps includeTrees true uses acc part
        = .ok acc' ∧
      ∀ e ∈ acc'.1, e ∈ acc.1 ∨
        (e.source ≠ .planFile ∧ e.source ≠ .applyScript ∧
          (e.source = .file → uses e.label = true)) := by
  obtain ⟨n1, h1⟩ := htok (formatOverhead .directoryTree)
  obtain ⟨n2, h2⟩ := htok (formatOverhead .file)
  obtain ⟨n3, h3⟩ := htok (formatOverhead .map)
  obtain ⟨n4, h4⟩ := htok (formatOverhead .url)
  obtain ⟨n5, h5⟩ := htok (formatOverhead .other)
  have d1 : ContextDirectoryTreeType ≠ ContextImageType := by decide
  have d2 : ContextFileType ≠ ContextImageType := by decide
  have d3 : ContextMapType ≠ ContextImageType := by decide
  have d4 : ContextFileType ≠ ContextDirectoryTreeType := by decide
  have d5 : ContextMapType ≠ ContextDirectoryTreeType := by decide
  have d6 : ContextFileType ≠ ContextMapType := by decide
  obtain ⟨msgs, n0, added0⟩ := acc
  have close : ∀ (x : ContextEntry), x.source ≠ .planFile → x.source ≠ .applyScript →
      (x.source = .file → uses x.label = true) →
      ∀ e, e ∈ msgs ∨ e = x → e ∈ msgs ∨
        (e.source ≠ .planFile ∧ e.source ≠ .applyScript ∧
          (e.source = .file → uses e.label = true)) := by
    intro x hx1 hx2 hx3 e he
    rcases he with he | he
    · exact Or.inl he
    · subst he
      exact Or.inr ⟨hx1, hx2, hx3⟩
  have keep : ∀ e ∈ msgs, e ∈ msgs ∨
      (e.source ≠ .planFile ∧ e.source ≠ .applyScript ∧
        (e.source = .file → uses e.label = true)) := fun e he => Or.inl he
  unfold contextPartStep
  by_cases ht : part.ContextType = ContextDirectoryTreeType
  · cases includeTrees
    · simpa [ht, d1, d4.symm, h1] using keep
    · simpa [ht, d1, d4.symm, h1] using close _ (by simp) (by simp) (by simp)
  · by_cases hf : part.ContextType = ContextFileType
    · cases hu : uses part.FilePath
      · simpa [hf, hu] using keep
      · simpa [hf, hu, d2, d4, d6, h2] using close
          { source := .file, label := part.FilePath,
            body := match planFiles with
              | some files =>
                match files.Files.lookup part.FilePath with
                | some res => res
                | none => part.Body
              | none => part.Body } (by simp) (by simp) (by simp [hu])
    · by_cases hm : part.ContextType = ContextMapType
      · cases includeMaps
        · simpa [hm, d3, d5, d6.symm, h3] using keep
        · simpa [hm, d3, d5, d6.symm, h3] using close _ (by simp) (by simp) (by simp)
      · by_cases hi : part.ContextType = ContextImageType
        · by_cases hu : part.Url = "" <;>
            simpa [hi, hu, d1.symm, d2.symm, d3.symm] using keep
        · by_cases hu : part.Url = ""
          · simpa [ht, hf, hm, hi, hu, h4, h5] using close
              { source := .other, label := part.Name, body := part.Body }
              (by simp) (by simp) (by simp)
          · simpa [ht, hf, hm, hi, hu, h4, h5] using close
              { source := .url, label := part.Url, body := part.Body }
              (by simp) (by simp) (by simp)

/-- In the implementation stage, with a tokenizer that succeeds, the first loop
succeeds, and the messages it appends are not plan-file or script messages and, when
file messages, are of files the subtask uses. -/
theorem contextPartsLoop_impl (env : TellEnv) (planFiles : Option CurrentPlanFiles)
    (includeMaps includeTrees : Bool) (uses : String → Bool)
    (htok : ∀ s, ∃ n, env.getNumTokens s = .ok n) (parts : List Context) :
    ∀ acc : List ContextEntry × Int × List String,
      ∃ acc', contextPartsLoop env planFiles includeMaps includeTrees true uses parts acc
          = .ok acc' ∧
        ∀ e ∈ acc'.1, e ∈ acc.1 ∨
          (e.source ≠ .planFile ∧ e.source ≠ .applyScript ∧
            (e.source = .file → uses e.label = true)) := by
  induction parts with
  | nil =>
    intro acc
    exact ⟨acc, by simp [contextPartsLoop], fun e he => Or.inl he⟩
  | cons part rest ih =>
    intro acc
    obtain ⟨acc1, hstep, h1⟩ :=
      contextPartStep_impl env planFiles includeMaps includeTrees uses htok acc part
    obtain ⟨acc2, hrest, h2⟩ := ih acc1
    refine ⟨acc2, ?_, ?_⟩
    · rw [contextPartsLoop, hstep]
      exact hrest
    · intro e he
      rcases h2 e he with h | h
      · exact h1 e h
      · exact Or.inr h

/-! ## C13: files shown in the implementation stage -/

/-- C13, counterexample: the sample tell state in the implementation stage of a
subtask that uses only `main.go`, with `execEnabled`. The file `other.go` of the
context and the plan file `util.go` are left out, but the returned text ends with
the file entry of the plan file `_apply.sh`, which the subtask does not list. -/
theorem implementation_stage_shows_apply_script :
    (formatModelContextEntries sampleTellEnv sampleTellState true true true true).map
        (fun r => r.toOption.map (fun x => x.1))
      = some (some
          [{ source := .file, label := "main.go", body := "package main" },
           { source := .directoryTree, label := "src", body := "src/main.go" },
           { source := .map, label := "src", body := "func main" },
           { source := .other, label := "todo", body := "ship it" },
           { source := .execHistory, body := "no commands run" },
           { source := .applyScriptHeading },
           { source := .applyScript, label := "_apply.sh", body := "go build" }]) ∧
    ({ source := .applyScript, label := "_apply.sh", body := "go build" } :
        ContextEntry).message = "\n\n- _apply.sh:\n\n```\ngo build\n```" ∧
    sampleTellState.currentSubtask = some { UsesFiles := ["main.go"] } ∧
    "_apply.sh" ∉ ["main.go"] := by
  decide

/-- C13 as amended: in the implementation stage of a subtask, with a loaded plan-file
view and a tokenizer that succeeds, `formatModelContext` returns without error,
and every file entry of the returned text that comes from a file context part or
from the loop over the current plan files has a path listed in
`currentSubtask.UsesFiles`. The only other file entry is the `_apply.sh` script,
appended last exactly when `execEnabled` holds, whether or not the subtask lists
it. -/
theorem formatModelContext_implementation_stage_files (env : TellEnv)
    (state : activeTellStreamState) (files : CurrentPlanFiles) (subtask : Subtask)
    (includeMaps includeTrees execEnabled : Bool)
    (htok : ∀ s, ∃ n, env.getNumTokens s = .ok n)
    (hfiles : state.currentPlanState.CurrentPlanFiles = some files)
    (hsub : state.currentSubtask = some subtask) :
    ∃ entries n,
      formatModelContextEntries env state includeMaps includeTrees true execEnabled
        = some (.ok (entries, n)) ∧
      formatModelContext env state includeMaps includeTrees true execEnabled
        = some (String.intercalate "\n### END OF CONTEXT ###\n"
            ("### LATEST PLAN CONTEXT ###" :: entries.map ContextEntry.message), n, none) ∧
      (∀ e ∈ entries, e.source = .file ∨ e.source = .planFile →
        e.label ∈ subtask.UsesFiles) ∧
      (∀ e ∈ entries, e.source = .applyScript →
        execEnabled = true ∧ e.label = "_apply.sh") ∧
      (execEnabled = true →
        ∃ body, entries.getLast? = some { source := .applyScript, label := "_apply.sh",
                                          body := body }) := by
  obtain ⟨⟨msgs, n, added⟩, hloop, hmsgs⟩ :=
    contextPartsLoop_impl env (some files) includeMaps includeTrees
      (fun path => decide (path ∈ subtask.UsesFiles)) htok state.modelContext ([], 0, [])
  have hfirst : ∀ e ∈ msgs, e.source ≠ .planFile ∧ e.source ≠ .applyScript ∧
      (e.source = .file → e.label ∈ subtask.UsesFiles) := by
    intro e he
    rcases hmsgs e he with h | h
    · simp at h
    · exact ⟨h.1, h.2.1, fun hs => by simpa using h.2.2 hs⟩
  have hplan : ∀ e ∈ planFilesLoop true (fun path => decide (path ∈ subtask.UsesFiles))
      added files.Files, e.source = .planFile ∧ e.label ∈ subtask.UsesFiles := by
    intro e he
    have h := planFilesLoop_mem _ _ _ _ e he
    exact ⟨h.1, by simpa using h.2.2 rfl⟩
  cases execEnabled with
  | false =>
    refine ⟨msgs ++ planFilesLoop true (fun path => decide (path ∈ subtask.UsesFiles))
      added files.Files, n, ?_, ?_, ?_, ?_, ?_⟩
    · simp [formatModelContextEntries, hfiles, hsub, hloop]
    · simp [formatModelContext, formatModelContextEntries, hfiles, hsub, hloop]
    · intro e he hsrc
      rcases List.mem_append.mp he with h | h
      · rcases hsrc with hs | hs
        · exact (hfirst e h).2.2 hs
        · exact absurd hs (hfirst e h).1
      · exact (hplan e h).2
    · intro e he hsrc
      rcases List.mem_append.mp he with h | h
      · exact absurd hsrc (hfirst e h).2.1
      · rw [(hplan e h).1] at hsrc
        cases hsrc
    · intro h
      cases h
  | true =>
    refine ⟨msgs ++ (planFilesLoop true (fun path => decide (path ∈ subtask.UsesFiles))
      added files.Files ++ execSection env files), n, ?_, ?_, ?_, ?_, ?_⟩
    · simp [formatModelContextEntries, hfiles, hsub, hloop]
    · simp [formatModelContext, formatModelContextEntries, hfiles, hsub, hloop]
    · intro e he hsrc
      rcases List.mem_append.mp he with h | h
      · rcases hsrc with hs | hs
        · exact (hfirst e h).2.2 hs
        · exact absurd hs (hfirst e h).1
      · rcases List.mem_append.mp h with h | h
        · exact (hplan e h).2
        · rcases execSection_mem env files e h with h1 | h1 | h1 <;>
            rcases hsrc with hs | hs <;> simp [h1] at hs
    · intro e he hsrc
      rcases List.mem_append.mp he with h | h
      · exact absurd hsrc (hfirst e h).2.1
      · rcases List.mem_append.mp h with h | h
        · rw [(hplan e h).1] at hsrc
          cases hsrc
        · rcases execSection_mem env files e h with h1 | h1 | h1
          · simp [h1] at hsrc
          · simp [h1] at hsrc
          · exact ⟨rfl, h1.2⟩
    · intro _
      simp [execSection]

/-- Witness for C13: the sample tell state without the exec section: the only file
entry is `main.go`. -/
theorem formatModelContext_implementation_stage_files_witness :
    ∃ entries n,
      formatModelContextEntries sampleTellEnv sampleTellState true true true false
        = some (.ok (entries, n)) ∧
      (∀ e ∈ entries, e.source = .file ∨ e.source = .planFile → e.label ∈ ["main.go"]) := by
  obtain ⟨entries, n, h1, -, h2, -, -⟩ := formatModelContext_implementation_stage_files
    sampleTellEnv sampleTellState
    { Files := [("util.go", "package util"), ("_apply.sh", "go build")] }
    { UsesFiles := ["main.go"] } true true false (fun s => ⟨s.length, rfl⟩) rfl rfl
  exact ⟨entries, n, h1, h2⟩

/-! ## C14: chunks charged to the token count -/

/-- With an empty model context the returned token count is 0, whatever the current
plan files and the exec section append to the text. -/
theorem formatModelContext_empty_context_tokens (env : TellEnv)
    (state : activeTellStreamState) (files : CurrentPlanFiles)
    (includeMaps includeTrees execEnabled : Bool)
    (hempty : state.modelContext = [])
    (hfiles : state.currentPlanState.CurrentPlanFiles = some files) :
    formatModelContextEntries env state includeMaps includeTrees false execEnabled
      = some (.ok (planFilesLoop false (fun _ => false) [] files.Files
          ++ (if execEnabled = true then execSection env files else []), 0)) := by
  cases execEnabled <;>
    simp [formatModelContextEntries, contextPartsLoop, hempty, hfiles]

/-- C14: the tell state whose plan holds `a.go` while the context is empty, with a
tokenizer that counts one token per character. The returned text holds the chunk of
`a.go`, which counts 28 tokens, and the returned token count is 0: the chunk is
appended without being charged. -/
theorem plan_file_chunk_is_not_charged :
    formatModelContext sampleTellEnv samplePlanFileOnlyState true true false false
      = some ("### LATEST PLAN CONTEXT ###\n### END OF CONTEXT ###\n\n\n- a.go:\n\n```\npackage a\n```",
          0, none) ∧
    (formatModelContextEntries sampleTellEnv samplePlanFileOnlyState true true false
        false).map (fun r => r.toOption)
      = some (some ([{ source := .planFile, label := "a.go", body := "package a" }], 0)) ∧
    (sampleTellEnv.getNumTokens
        ({ source := .planFile, label := "a.go", body := "package a" } :
          ContextEntry).message).toOption
      = some 28 := by
  refine ⟨by decide, by decide, by decide⟩

/-! ## C18: a nil plan-file view -/

/-- With a nil plan-file view `formatModelContext` never returns a result without an
error: it dereferences the nil view after the first loop, unless the tokenizer has
failed before. -/
theorem formatModelContext_nil_plan_files (env : TellEnv) (state : activeTellStreamState)
    (includeMaps includeTrees isImplementationStage execEnabled : Bool)
    (hnil : state.currentPlanState.CurrentPlanFiles = none) :
    formatModelContext env state includeMaps includeTrees isImplementationStage execEnabled
        = none ∨
      ∃ err, formatModelContext env state includeMaps includeTrees isImplementationStage
        execEnabled = some ("", 0, some err) := by
  unfold formatModelContext formatModelContextEntries
  simp only [hnil]
  split
  · exact Or.inl rfl
  · split
    · exact Or.inr ⟨_, rfl⟩
    · exact Or.inl rfl

/-- C18: the tell state with `main.go` in context and a nil plan-file view, outside
the implementation stage, with a tokenizer that succeeds. The first loop uses the
body of the context part, and the loop over the current plan files then
dereferences the nil view: no result is returned, with `execEnabled` false or
true. -/
theorem nil_plan_files_is_dereferenced :
    (contextPartsLoop sampleTellEnv none true true false (fun _ => false)
        sampleNoPlanFilesState.modelContext ([], 0, [])).toOption
      = some ([{ source := .file, label := "main.go", body := "package main" }], 30,
          ["main.go"]) ∧
    formatModelContext sampleTellEnv sampleNoPlanFilesState true true false false = none ∧
    formatModelContext sampleTellEnv sampleNoPlanFilesState true true false true = none := by
  refine ⟨by decide, by decide, by decide⟩

/-! ## C17: the only owner of an org -/

/-- C17, counterexample: the admin asks to remove `u-owner`, who has the owner role
in an org with exactly one owner, while `db.GetOrg` fails. The handler deletes
nothing, but it answers 500, not 403. -/
theorem only_owner_request_can_answer_500 :
    (sampleOwnerDbDownEnv.getOrgUser "u-owner" "org-1").toOption
      = some { UserId := "u-owner", OrgRoleId := "role-owner" } ∧
    sampleOwnerDbDownEnv.getOrgOwnerRoleId.toOption = some "role-owner" ∧
    (sampleOwnerDbDownEnv.numUsersWithRole "org-1" "role-owner").toOption = some 1 ∧
    DeleteOrgUserHandler sampleOwnerDbDownEnv
      = (.httpError "Error getting org: connection refused" 500, []) ∧
    (DeleteOrgUserHandler sampleOwnerDbDownEnv).1.status ≠ some StatusForbidden := by
  decide

/-- C17 as amended: for every request whose target user has the org-owner role while
the org has exactly one user with that role (whatever the lookups return when they
succeed says so), the handler never reaches the transaction, whichever step fails:
it calls neither `DeleteOrgUser` nor `DeleteInvite`. It answers 403 whenever
authentication and every lookup before the owner check (`GetOrg`, `GetOrgUser`,
`ValidateOrgMembership`, `GetOrgOwnerRoleId`, `NumUsersWithRole`) succeed;
otherwise it stops at the first failing step it reaches, leaving the answer to
`Authenticate` or answering 403 (an earlier refusal) or 500 (a failed lookup). -/
theorem DeleteOrgUserHandler_only_owner (env : HandlerEnv) (ownerRole : String)
    (hrole : ∀ auth orgUser, env.authenticate = some auth →
      env.getOrgUser env.userId auth.OrgId = .ok orgUser → orgUser.OrgRoleId = ownerRole)
    (howner : ∀ r, env.getOrgOwnerRoleId = .ok r → r = ownerRole)
    (hone : ∀ auth n, env.authenticate = some auth →
      env.numUsersWithRole auth.OrgId ownerRole = .ok n → n = 1) :
    (DeleteOrgUserHandler env).2 = [] ∧
    deletedOrgUsers (DeleteOrgUserHandler env).2 = [] ∧
    deletedInvites (DeleteOrgUserHandler env).2 = [] ∧
    ((DeleteOrgUserHandler env).1.status = some StatusForbidden ∨
      (env.authenticate = none ∧ (DeleteOrgUserHandler env).1 = .byAuthenticate) ∨
      (∃ auth, env.authenticate = some auth ∧
        ((∃ err, env.getOrg auth.OrgId = .error err) ∨
          (∃ err, env.getOrgUser env.userId auth.OrgId = .error err) ∨
          (∃ err, env.validateOrgMembership env.userId auth.OrgId = .error err) ∨
          (∃ err, env.getOrgOwnerRoleId = .error err) ∨
          (∃ err, env.numUsersWithRole auth.OrgId ownerRole = .error err)) ∧
        (DeleteOrgUserHandler env).1.status = some StatusInternalServerError)) ∧
    (∀ auth org orgUser isMember r n, env.authenticate = some auth →
      env.getOrg auth.OrgId = .ok org →
      env.getOrgUser env.userId auth.OrgId = .ok orgUser →
      env.validateOrgMembership env.userId auth.OrgId = .ok isMember →
      env.getOrgOwnerRoleId = .ok r →
      env.numUsersWithRole auth.OrgId r = .ok n →
      (DeleteOrgUserHandler env).1.status = some StatusForbidden) := by
  by_cases hlocal : env.goenv = "development" ∧ env.localMode = "1"
  · have hres : DeleteOrgUserHandler env = (.apiError "ApiErrorTypeOther" StatusForbidden
        "Local mode is not supported for user management", []) := by
      simp [DeleteOrgUserHandler, hlocal]
    rw [hres]
    exact ⟨rfl, rfl, rfl, Or.inl rfl, fun _ _ _ _ _ _ _ _ _ _ _ _ => rfl⟩
  · cases hauth : env.authenticate with
    | none =>
      have hres : DeleteOrgUserHandler env = (.byAuthenticate, []) := by
        simp [DeleteOrgUserHandler, hlocal, hauth]
      rw [hres]
      refine ⟨rfl, rfl, rfl, Or.inr (Or.inl ⟨rfl, rfl⟩), ?_⟩
      intro auth _ _ _ _ _ ha
      cases ha
    | some auth =>
      cases horg : env.getOrg auth.OrgId with
      | error err =>
        have hres : DeleteOrgUserHandler env
            = (.httpError ("Error getting org: " ++ err) StatusInternalServerError, []) := by
          simp [DeleteOrgUserHandler, hlocal, hauth, horg]
        rw [hres]
        refine ⟨rfl, rfl, rfl, Or.inr (Or.inr ⟨auth, rfl, Or.inl ⟨err, horg⟩, rfl⟩), ?_⟩
        intro auth1 org1 _ _ _ _ ha ho
        cases ha
        rw [horg] at ho
        cases ho
      | ok org =>
        cases htrial : org.IsTrial with
        | true =>
          have hres : DeleteOrgUserHandler env
              = (.apiError "ApiErrorTypeTrialActionNotAllowed" StatusForbidden
                  "Trial user can't delete users", []) := by
            simp [DeleteOrgUserHandler, hlocal, hauth, horg, htrial]
          rw [hres]
          exact ⟨rfl, rfl, rfl, Or.inl rfl, fun _ _ _ _ _ _ _ _ _ _ _ _ => rfl⟩
        | false =>
          cases hou : env.getOrgUser env.userId auth.OrgId with
          | error err =>
            have hres : DeleteOrgUserHandler env
                = (.httpError ("Error getting org user: " ++ err)
                    StatusInternalServerError, []) := by
              simp [DeleteOrgUserHandler, hlocal, hauth, horg, htrial, hou]
            rw [hres]
            refine ⟨rfl, rfl, rfl,
              Or.inr (Or.inr ⟨auth, rfl, Or.inr (Or.inl ⟨err, hou⟩), rfl⟩), ?_⟩
            intro auth1 _ orgUser1 _ _ _ ha _ hu
            cases ha
            rw [hou] at hu
            cases hu
          | ok orgUser =>
            have hr : orgUser.OrgRoleId = ownerRole := hrole auth orgUser hauth hou
            cases hperm :
                env.hasPermission (env.permissionRemoveUser ++ "|" ++ orgUser.OrgRoleId) with
            | false =>
              have hres : DeleteOrgUserHandler env
                  = (.httpError ("User does not have permission to remove user with role: "
                      ++ orgUser.OrgRoleId) StatusForbidden, []) := by
                simp [DeleteOrgUserHandler, hlocal, hauth, horg, htrial, hou, hperm]
              rw [hres]
              exact ⟨rfl, rfl, rfl, Or.inl rfl, fun _ _ _ _ _ _ _ _ _ _ _ _ => rfl⟩
            | true =>
              cases hval : env.validateOrgMembership env.userId auth.OrgId with
              | error err =>
                have hres : DeleteOrgUserHandler env
                    = (.httpError ("Error validating org membership: " ++ err)
                        StatusInternalServerError, []) := by
                  simp [DeleteOrgUserHandler, hlocal, hauth, horg, htrial, hou, hperm, hval]
                rw [hres]
                refine ⟨rfl, rfl, rfl,
                  Or.inr (Or.inr ⟨auth, rfl, Or.inr (Or.inr (Or.inl ⟨err, hval⟩)), rfl⟩), ?_⟩
                intro auth1 _ _ isMember1 _ _ ha _ _ hv
                cases ha
                rw [hval] at hv
                cases hv
              | ok isMember =>
                cases isMember with
                | false =>
                  have hres : DeleteOrgUserHandler env
                      = (.httpError ("User " ++ env.userId ++ " is not a member of org "
                          ++ auth.OrgId) StatusForbidden, []) := by
                    simp [DeleteOrgUserHandler, hlocal, hauth, horg, htrial, hou, hperm, hval]
                  rw [hres]
                  exact ⟨rfl, rfl, rfl, Or.inl rfl, fun _ _ _ _ _ _ _ _ _ _ _ _ => rfl⟩
                | true =>
                  cases hown : env.getOrgOwnerRoleId with
                  | error err =>
                    have hres : DeleteOrgUserHandler env
                        = (.httpError ("Error getting org owner role id: " ++ err)
                            StatusInternalServerError, []) := by
                      simp [DeleteOrgUserHandler, hlocal, hauth, horg, htrial, hou, hperm,
                        hval, hown]
                    rw [hres]
                    refine ⟨rfl, rfl, rfl,
                      Or.inr (Or.inr ⟨auth, rfl,
                        Or.inr (Or.inr (Or.inr (Or.inl ⟨err, rfl⟩))), rfl⟩), ?_⟩
                    intro _ _ _ _ r1 _ _ _ _ _ hr1
                    cases hr1
                  | ok r =>
                    have hrr : r = ownerRole := howner r hown
                    subst hrr
                    have hperm1 := hperm
                    rw [hr] at hperm1
                    cases hnum : env.numUsersWithRole auth.OrgId r with
                    | error err =>
                      have hres : DeleteOrgUserHandler env
                          = (.httpError ("Error getting number of org owners: " ++ err)
                              StatusInternalServerError, []) := by
                        simp [DeleteOrgUserHandler, hlocal, hauth, horg, htrial, hou, hperm1,
                          hval, hown, hr, hnum]
                      rw [hres]
                      refine ⟨rfl, rfl, rfl,
                        Or.inr (Or.inr ⟨auth, rfl,
                          Or.inr (Or.inr (Or.inr (Or.inr ⟨err, hnum⟩))), rfl⟩), ?_⟩
                      intro auth1 _ _ _ r1 n1 ha _ _ _ hr1 hn1
                      cases ha
                      cases hr1
                      rw [hnum] at hn1
                      cases hn1
                    | ok n =>
                      have hn : n = 1 := hone auth n hauth hnum
                      subst hn
                      have hres : DeleteOrgUserHandler env
                          = (.httpError "Cannot delete the only org owner" StatusForbidden,
                              []) := by
                        simp [DeleteOrgUserHandler, hlocal, hauth, horg, htrial, hou, hperm1,
                          hval, hown, hr, hnum]
                      rw [hres]
                      exact ⟨rfl, rfl, rfl, Or.inl rfl,
                        fun _ _ _ _ _ _ _ _ _ _ _ _ => rfl⟩

/-- Witness for C17: the admin asks to remove the only owner and every lookup
succeeds. -/
theorem DeleteOrgUserHandler_only_owner_witness :
    (DeleteOrgUserHandler sampleOwnerEnv).2 = [] ∧
    (DeleteOrgUserHandler sampleOwnerEnv).1.status = some StatusForbidden := by
  have h := DeleteOrgUserHandler_only_owner sampleOwnerEnv "role-owner"
    (fun auth orgUser _ hou => by
      have h1 : Except.ok { UserId := "u-owner", OrgRoleId := "role-owner" }
          = Except.ok (ε := String) orgUser := hou
      cases h1
      rfl)
    (fun r hr => by
      have h1 : Except.ok (ε := String) "role-owner" = Except.ok r := hr
      cases h1
      rfl)
    (fun auth n _ hn => by
      have h1 : Except.ok (ε := String) (1 : Int) = Except.ok n := hn
      cases h1
      rfl)
  exact ⟨h.1, h.2.2.2.2 _ { IsTrial := false }
    { UserId := "u-owner", OrgRoleId := "role-owner" } true "role-owner" 1
    rfl rfl rfl rfl rfl rfl⟩

/-! ## C19: the invite deleted with a removed user -/

/-- Every invite lookup of the transaction phase is made with the email address of
the authenticated requester, whoever the removed user is. -/
theorem deleteOrgUserTransaction_lookups (env : HandlerEnv) (auth : ServerAuth)
    (userId : String) :
    ∀ x ∈ inviteLookups (deleteOrgUserTransaction env auth userId).2,
      x = (auth.OrgId, auth.User.Email) := by
  unfold deleteOrgUserTransaction
  cases env.beginx with
  | some err => simp [inviteLookups]
  | none =>
    cases env.deleteOrgUser auth.OrgId userId with
    | some err => simp [inviteLookups]
    | none =>
      cases env.getActiveInviteByEmail auth.OrgId auth.User.Email with
      | error err => simp [inviteLookups]
      | ok invite =>
        cases invite with
        | none => cases env.commit <;> simp [inviteLookups]
        | some inv =>
          cases hdel : env.deleteInvite inv.Id <;> cases env.commit <;>
            simp [inviteLookups, hdel]

/-- C19: the admin `u-admin` removes the member `u-bob`; both have an active invite.
The handler deletes `u-bob` from the org, then looks up the active invite of the
email address of the requester, `admin@acme.io`, and deletes that invite,
`inv-admin`. The invite of the removed user, `inv-bob` for `bob@acme.io`, is neither
looked up nor deleted. -/
theorem removed_user_invite_is_not_the_one_deleted :
    DeleteOrgUserHandler sampleHandlerEnv
      = (.done,
         [.beginx, .deleteOrgUser "org-1" "u-bob",
          .getActiveInviteByEmail "org-1" "admin@acme.io",
          .deleteInvite "inv-admin", .commit, .rollback]) ∧
    sampleUserEmail sampleHandlerEnv.userId = "bob@acme.io" ∧
    (sampleHandlerEnv.getActiveInviteByEmail "org-1"
        (sampleUserEmail sampleHandlerEnv.userId)).toOption
      = some (some { Id := "inv-bob", Email := "bob@acme.io" }) ∧
    deletedInvites (DeleteOrgUserHandler sampleHandlerEnv).2 = ["inv-admin"] ∧
    inviteLookups (DeleteOrgUserHandler sampleHandlerEnv).2 = [("org-1", "admin@acme.io")] := by
  decide

end Plandex
